import Mathlib

/-!
Verification of the fund-backtesting engine (`backend/services/backtest`).

The Python source is shallowly embedded:
* Python `float` money/share arithmetic is modelled exactly over `ℚ`;
  the float results `NaN` (from pandas `std` of a length-1 series) are
  modelled by `Option ℚ` with `none` standing for `NaN`.
* Irrational float operations (`sqrt`, fractional powers, scipy
  statistics) are abstracted as an environment `FloatOps` of arbitrary
  rational-valued functions; every theorem quantifies over the
  environment, so nothing proved depends on a particular approximation.
* Fallible Python code (a `raise`) is modelled by `Except String`.
* Python `dict`s keyed by fund code are modelled as association lists
  with dict update semantics (`setKey`), and the metrics dictionaries
  returned by `PerformanceCalculator` as `List (String × MVal)`.
-/

/-- A value of the loosely typed Python metric dictionaries:
rational numbers, strings, booleans, the float specials `nan`/`inf`,
and a nested fund-code → weight dictionary. -/
inductive MVal where
  | num (q : ℚ)
  | str (s : String)
  | bool (b : Bool)
  | nan
  | inf
  | dictQ (d : List (String × ℚ))
deriving DecidableEq, Repr

/-! ### Calendar dates

`datetime.date` is embedded as a year/month/day triple.  Comparison is
lexicographic (chronological on valid dates, as in Python), and the
day-number function below (days since 0000-03-01, Gregorian) supports
the weekday computation of `date.weekday()` and the day-difference used
by the engine's five-year check. -/

structure Date where
  year : ℕ
  month : ℕ
  day : ℕ
deriving DecidableEq, Repr

def isLeapYear (y : ℕ) : Bool :=
  (y % 4 == 0 && y % 100 != 0) || y % 400 == 0

def daysInMonth (y m : ℕ) : ℕ :=
  if m = 2 then (if isLeapYear y then 29 else 28)
  else if m = 4 ∨ m = 6 ∨ m = 9 ∨ m = 11 then 30
  else 31

/-- Days since 0000-03-01 (standard civil-from-days formula, restricted
to years ≥ 1 so plain `ℕ` arithmetic suffices). -/
def Date.toDays (d : Date) : ℕ :=
  let y := if d.month ≤ 2 then d.year - 1 else d.year
  let era := y / 400
  let yoe := y - era * 400
  let mp := if d.month > 2 then d.month - 3 else d.month + 9
  let doy := (153 * mp + 2) / 5 + (d.day - 1)
  let doe := yoe * 365 + yoe / 4 - yoe / 100 + doy
  era * 146097 + doe

/-- `date.weekday()`: Monday = 0 … Sunday = 6. -/
def Date.weekday (d : Date) : ℕ := (d.toDays + 2) % 7

/-- Python date comparison (lexicographic on year, month, day). -/
def Date.le (a b : Date) : Bool :=
  a.year < b.year ∨ (a.year = b.year ∧
    (a.month < b.month ∨ (a.month = b.month ∧ a.day ≤ b.day)))

def Date.lt (a b : Date) : Bool := a.le b && a ≠ b

def Date.iso (d : Date) : String :=
  toString d.year ++ "-" ++ toString d.month ++ "-" ++ toString d.day

/-- `current_date + timedelta(days=1)` for valid dates. -/
def Date.nextDay (d : Date) : Date :=
  if d.day < daysInMonth d.year d.month then ⟨d.year, d.month, d.day + 1⟩
  else if d.month < 12 then ⟨d.year, d.month + 1, 1⟩
  else ⟨d.year + 1, 1, 1⟩

def Date.addDays (d : Date) : ℕ → Date
  | 0 => d
  | n + 1 => (d.nextDay).addDays n

/-- `current_date.replace(month=month+1)` / year rollover for December,
as in `BacktestEngine._generate_investment_dates`.  Like Python's
`date.replace`, this raises (`none`) when the day does not exist in the
target month (e.g. Jan 31 → Feb 31). -/
def Date.nextMonthSameDay (d : Date) : Option Date :=
  if d.month = 12 then
    if d.day ≤ daysInMonth (d.year + 1) 1 then some ⟨d.year + 1, 1, d.day⟩ else none
  else
    if d.day ≤ daysInMonth d.year (d.month + 1) then some ⟨d.year, d.month + 1, d.day⟩ else none

/-! ### NAV data, holdings and transactions -/

/-- The pivoted NAV DataFrame: a date index, fund-code columns, and a
cell function (`none` models a `NaN` cell). -/
structure NavTable where
  index : List Date
  columns : List String
  entry : Date → String → Option ℚ

/-- `historical_data.loc[day, fund]` guarded by the strategies' explicit
`fund_code in historical_data.columns` check. -/
def NavTable.cell (tbl : NavTable) (d : Date) (f : String) : Option ℚ :=
  if f ∈ tbl.columns then tbl.entry d f else none

/-- `holdings.get(fund_code, 0)` on the holdings dict. -/
def holdingsGet (h : List (String × ℚ)) (f : String) : ℚ :=
  ((h.find? (fun p => p.1 = f)).map Prod.snd).getD 0

/-- Membership test `fund_code in holdings`. -/
def hasKey (h : List (String × ℚ)) (f : String) : Bool :=
  h.any (fun p => p.1 = f)

/-- `holdings[fund_code] = v`: dict update (overwrite in place, else
append, preserving insertion order like a Python dict). -/
def setKey (h : List (String × ℚ)) (f : String) (v : ℚ) : List (String × ℚ) :=
  if hasKey h f then h.map (fun p => if p.1 = f then (f, v) else p)
  else h ++ [(f, v)]

/-- `BaseStrategy.calculate_portfolio_value`: iterate the holdings dict,
adding `shares × nav` for every fund whose NAV cell exists and is not
`NaN`. -/
def calcPortfolioValue (h : List (String × ℚ)) (tbl : NavTable) (d : Date) : ℚ :=
  h.foldl (fun acc p =>
    match tbl.cell d p.1 with
    | some nav => acc + p.2 * nav
    | none => acc) 0

/-- A transaction record as built by `BaseStrategy.create_transaction`. -/
structure Transaction where
  txdate : Date
  fund_code : String
  action : String
  amount : ℚ
  shares : ℚ
  nav_price : ℚ
deriving DecidableEq, Repr

/-! ### Configuration -/

/-- The open `strategy_params` dict, restricted to the keys the two
strategies and the engine actually read.  `none` models an absent key
(`dict.get` defaults are applied at each use site, mirroring the
source, whose defaults differ between `validate_params` and
`execute_backtest`). -/
structure StrategyParams where
  strategy_type : Option String := none
  investment_amount : Option ℚ := none
  base_investment : Option ℚ := none
  target_value_growth_rate : Option ℚ := none
  max_investment_multiplier : Option ℚ := none
  min_investment_multiplier : Option ℚ := none
  fund_allocation : List (String × ℚ) := []
  fee_rate : Option ℚ := none
deriving Repr

/-- `BacktestConfig` dataclass. -/
structure BacktestConfig where
  strategy_id : ℕ
  start_date : Date
  end_date : Date
  initial_amount : ℚ
  investment_frequency : String
  strategy_params : StrategyParams
  fund_codes : List String

/-! ### Parameter validation -/

/-- `BaseStrategy.validate_params`: every name in `get_required_params`
must be a key of the dict.  Both concrete strategies declare an empty
required list, so this is vacuously true for them. -/
def baseValidateParams (required : List String) (present : List String) : Bool :=
  required.all (fun p => p ∈ present)

/-- `RegularInvestmentStrategy.get_required_params`. -/
def riGetRequiredParams : List String := []

/-- `RegularInvestmentStrategy.get_default_params` (metric-dict form). -/
def riGetDefaultParams : List (String × MVal) :=
  [("investment_amount", .num 1000),
   ("fund_allocation", .dictQ []),
   ("fee_rate", .num (1/1000)),
   ("rebalance_frequency", .str "monthly"),
   ("rebalance_threshold", .num (5/100))]

/-- `RegularInvestmentStrategy.validate_params`: the required-params
check (vacuous), then `investment_amount` (default 0) must be > 0 and
`fee_rate` (default 0) must lie in [0, 1).  The fund-allocation branch
only logs a warning and never fails. -/
def riValidateParams (p : StrategyParams) : Bool :=
  if ¬ baseValidateParams riGetRequiredParams [] then false
  else if p.investment_amount.getD 0 ≤ 0 then false
  else if p.fee_rate.getD 0 < 0 ∨ 1 ≤ p.fee_rate.getD 0 then false
  else true

/-- `ValueAveragingStrategy.get_required_params`. -/
def vaGetRequiredParams : List String := []

/-- `ValueAveragingStrategy.get_default_params` (metric-dict form). -/
def vaGetDefaultParams : List (String × MVal) :=
  [("base_investment", .num 1000),
   ("target_value_growth_rate", .num (1/100)),
   ("max_investment_multiplier", .num 3),
   ("min_investment_multiplier", .num (1/10)),
   ("fund_allocation", .dictQ []),
   ("fee_rate", .num (1/1000)),
   ("rebalance_threshold", .num (1/10)),
   ("sell_threshold", .num (2/10))]

/-- `ValueAveragingStrategy.validate_params`: `base_investment`
(default 0) must be > 0, `target_value_growth_rate` (default 0) must be
in [-0.5, 0.5], both multipliers (default 1) must be > 0 and the max
must exceed the min.  Note that `fee_rate` is not validated here. -/
def vaValidateParams (p : StrategyParams) : Bool :=
  if ¬ baseValidateParams vaGetRequiredParams [] then false
  else if p.base_investment.getD 0 ≤ 0 then false
  else if p.target_value_growth_rate.getD 0 < -(1/2) ∨
          (1/2) < p.target_value_growth_rate.getD 0 then false
  else if p.max_investment_multiplier.getD 1 ≤ 0 ∨
          p.min_investment_multiplier.getD 1 ≤ 0 then false
  else if p.max_investment_multiplier.getD 1 ≤ p.min_investment_multiplier.getD 1 then false
  else true

/-! ### Allocation resolution (shared preamble of both strategies) -/

/-- If `fund_allocation` is empty, split equally across
`config.fund_codes`; otherwise extend the given dict with weight 0 for
any configured fund it misses (appended in `fund_codes` order, as dict
insertion does). -/
def resolveAllocation (given : List (String × ℚ)) (fund_codes : List String) :
    List (String × ℚ) :=
  if given.isEmpty then
    fund_codes.map (fun f => (f, 1 / (fund_codes.length : ℚ)))
  else
    given ++ (fund_codes.filter (fun f => ¬ hasKey given f)).map (fun f => (f, 0))

/-! ### RegularInvestmentStrategy -/

/-- Mutable simulation state of one strategy run: `cash`, the
`holdings` dict and the append-only transaction log. -/
structure PState where
  cash : ℚ
  holdings : List (String × ℚ)
  txs : List Transaction
deriving Repr

/-- One fund leg of the regular-investment loop body: requires a
positive weight, the fund present among the data columns, a non-`NaN`
positive NAV, and cash covering the leg; then buys
`amount × weight × (1 − fee) / nav` shares, debits the pre-fee amount
and records a `buy` transaction. -/
def riBuyLeg (tbl : NavTable) (d : Date) (amount fee : ℚ)
    (st : PState) (p : String × ℚ) : PState :=
  if p.2 > 0 ∧ p.1 ∈ tbl.columns then
    match tbl.entry d p.1 with
    | some nav =>
      if nav > 0 then
        let fund_investment := amount * p.2
        if st.cash ≥ fund_investment then
          let investment_after_fee := fund_investment * (1 - fee)
          let shares := investment_after_fee / nav
          { cash := st.cash - fund_investment,
            holdings := setKey st.holdings p.1 (holdingsGet st.holdings p.1 + shares),
            txs := st.txs ++ [⟨d, p.1, "buy", investment_after_fee, shares, nav⟩] }
        else st
      else st
    | none => st
  else st

/-- One trading day of `RegularInvestmentStrategy.execute_backtest`
(the trades only; the day's portfolio value is read off afterwards). -/
def riTradeDay (tbl : NavTable) (inv_dates : List Date) (alloc : List (String × ℚ))
    (amount fee : ℚ) (st : PState) (d : Date) : PState :=
  if d ∈ inv_dates then alloc.foldl (riBuyLeg tbl d amount fee) st else st

/-- The portfolio-value series of the regular-investment loop: on each
trading day the value is appended *after* that day's trades settle. -/
def riSeries (tbl : NavTable) (inv_dates : List Date) (alloc : List (String × ℚ))
    (amount fee : ℚ) (st : PState) : List Date → List ℚ
  | [] => []
  | d :: ds =>
    let st' := riTradeDay tbl inv_dates alloc amount fee st d
    (st'.cash + calcPortfolioValue st'.holdings tbl d) ::
      riSeries tbl inv_dates alloc amount fee st' ds

/-- The resolved fund allocation of a run (shared by both strategies). -/
def allocOf (config : BacktestConfig) : List (String × ℚ) :=
  resolveAllocation config.strategy_params.fund_allocation config.fund_codes

/-- `strategy_params.get('fee_rate', 0.001)` as read by both strategies. -/
def feeOf (config : BacktestConfig) : ℚ := config.strategy_params.fee_rate.getD (1/1000)

/-- The per-period amount read by `RegularInvestmentStrategy`. -/
def riAmount (config : BacktestConfig) : ℚ := config.strategy_params.investment_amount.getD 0

/-- The initial run state of the regular-investment loop. -/
def riSt0 (config : BacktestConfig) : PState := ⟨config.initial_amount, [], []⟩

/-- `RegularInvestmentStrategy.execute_backtest`.  Raises (`.error`)
when `validate_params` fails; the final log line indexes
`portfolio_series.iloc[-1]`, so an empty NAV index also raises.
The Python default for a missing `investment_amount` key reads
`config.investment_amount`, an attribute `BacktestConfig` does not
have; that branch is unreachable because `validate_params` has already
required the key (claim C10), so `getD 0` is observationally equal. -/
def riExecute (config : BacktestConfig) (tbl : NavTable) (inv_dates : List Date) :
    Except String (List Transaction × List (Date × ℚ)) :=
  if ¬ riValidateParams config.strategy_params then .error "策略参数验证失败"
  else
    if tbl.index.isEmpty then .error "IndexError"
    else
      .ok ((tbl.index.foldl
              (riTradeDay tbl inv_dates (allocOf config) (riAmount config) (feeOf config))
              (riSt0 config)).txs,
           tbl.index.zip (riSeries tbl inv_dates (allocOf config) (riAmount config)
              (feeOf config) (riSt0 config) tbl.index))

/-! ### ValueAveragingStrategy -/

/-- State of a value-averaging run: as `PState` plus the 1-based
scheduled-period counter. -/
structure VState where
  cash : ℚ
  holdings : List (String × ℚ)
  txs : List Transaction
  period : ℕ
deriving Repr

/-- One buy leg of the value-averaging loop: positive weight, fund
among the columns, non-`NaN` positive NAV; buys
`amt × weight × (1 − fee) / nav` shares and debits the pre-fee amount.
Unlike the regular-investment leg there is no per-leg cash check. -/
def vaBuyLeg (tbl : NavTable) (d : Date) (amt fee : ℚ)
    (st : VState) (p : String × ℚ) : VState :=
  if p.2 > 0 ∧ p.1 ∈ tbl.columns then
    match tbl.entry d p.1 with
    | some nav =>
      if nav > 0 then
        let fund_investment := amt * p.2
        let investment_after_fee := fund_investment * (1 - fee)
        let shares := investment_after_fee / nav
        { st with
          cash := st.cash - fund_investment,
          holdings := setKey st.holdings p.1 (holdingsGet st.holdings p.1 + shares),
          txs := st.txs ++ [⟨d, p.1, "buy", investment_after_fee, shares, nav⟩] }
      else st
    | none => st
  else st

/-- One sell leg of the value-averaging loop: positive weight, fund
held with positive shares, non-`NaN` positive NAV, and the leg's
`shares_to_sell ≤ available` check; then removes the shares, credits
the after-fee proceeds and records a `sell` transaction.  (The Python
reads `historical_data.loc[day, fund]` here without a column check;
held funds always came from a buy leg, which did check, so this is
modelled by `entry` directly.) -/
def vaSellLeg (tbl : NavTable) (d : Date) (sell_amount fee : ℚ)
    (st : VState) (p : String × ℚ) : VState :=
  if p.2 > 0 ∧ hasKey st.holdings p.1 ∧ holdingsGet st.holdings p.1 > 0 then
    let fund_sell_value := sell_amount * p.2
    match tbl.entry d p.1 with
    | some nav =>
      if nav > 0 then
        let shares_to_sell := fund_sell_value / nav
        let available := holdingsGet st.holdings p.1
        if shares_to_sell ≤ available then
          { st with
            holdings := setKey st.holdings p.1 (available - shares_to_sell),
            cash := st.cash + fund_sell_value * (1 - fee),
            txs := st.txs ++ [⟨d, p.1, "sell", fund_sell_value * (1 - fee),
                               shares_to_sell, nav⟩] }
        else st
      else st
    | none => st
  else st

/-- The target-value path
`initial + base × t × (1 + g)^(t-1)` of the value-averaging strategy
(also `calculate_target_value_path`). -/
def vaTargetValue (initial base g : ℚ) (period : ℕ) : ℚ :=
  initial + base * (period : ℚ) * (1 + g) ^ (period - 1)

/-- One trading day of `ValueAveragingStrategy.execute_backtest` (the
trades only; the day's value was already appended *before* this).  On a
scheduled date: bump the period, compute the target-value path point
and `required = target − current`; buy the `[min_inv, max_inv]`-clamped
amount only if cash covers it in full, or sell
`min(|required|, 0.2 × current)` pro-rated across held funds when the
overshoot exceeds the 10 % dead-band. -/
def vaTradeDay (tbl : NavTable) (inv_dates : List Date) (alloc : List (String × ℚ))
    (initial base g maxM minM fee : ℚ) (st : VState) (d : Date) : VState :=
  let current := st.cash + calcPortfolioValue st.holdings tbl d
  if d ∈ inv_dates then
    let period := st.period + 1
    let target := vaTargetValue initial base g period
    let required := target - current
    let max_investment := base * maxM
    let min_investment := base * minM
    let st' := { st with period := period }
    if required > 0 then
      let amt := min max_investment (max min_investment required)
      if st'.cash ≥ amt then alloc.foldl (vaBuyLeg tbl d amt fee) st' else st'
    else if required < 0 ∧ |required| > base * (1/10) then
      let sell_amount := min |required| (current * (2/10))
      let total_value := calcPortfolioValue st.holdings tbl d
      if total_value > 0 then alloc.foldl (vaSellLeg tbl d sell_amount fee) st' else st'
    else st'
  else st

/-- The portfolio-value series of the value-averaging loop: on each
trading day the value is appended *before* that day's trades. -/
def vaSeries (tbl : NavTable) (inv_dates : List Date) (alloc : List (String × ℚ))
    (initial base g maxM minM fee : ℚ) (st : VState) : List Date → List ℚ
  | [] => []
  | d :: ds =>
    (st.cash + calcPortfolioValue st.holdings tbl d) ::
      vaSeries tbl inv_dates alloc initial base g maxM minM fee
        (vaTradeDay tbl inv_dates alloc initial base g maxM minM fee st d) ds

/-- The `base_investment` read by `ValueAveragingStrategy.execute_backtest`
(the `execute`-site defaults below differ from the `validate`-site ones). -/
def vaBase (config : BacktestConfig) : ℚ := config.strategy_params.base_investment.getD 0

def vaGrowth (config : BacktestConfig) : ℚ :=
  config.strategy_params.target_value_growth_rate.getD (1/100)

def vaMaxM (config : BacktestConfig) : ℚ :=
  config.strategy_params.max_investment_multiplier.getD 3

def vaMinM (config : BacktestConfig) : ℚ :=
  config.strategy_params.min_investment_multiplier.getD (1/10)

/-- The initial run state of the value-averaging loop. -/
def vaSt0 (config : BacktestConfig) : VState := ⟨config.initial_amount, [], [], 0⟩

/-- `ValueAveragingStrategy.execute_backtest`.  Raises on failed
validation and on an empty NAV index (final `iloc[-1]` log).  As in
`riExecute`, the Python defaults reading `config.investment_amount` are
unreachable after validation. -/
def vaExecute (config : BacktestConfig) (tbl : NavTable) (inv_dates : List Date) :
    Except String (List Transaction × List (Date × ℚ)) :=
  if ¬ vaValidateParams config.strategy_params then .error "策略参数验证失败"
  else
    if tbl.index.isEmpty then .error "IndexError"
    else
      .ok ((tbl.index.foldl
              (vaTradeDay tbl inv_dates (allocOf config) config.initial_amount (vaBase config)
                (vaGrowth config) (vaMaxM config) (vaMinM config) (feeOf config))
              (vaSt0 config)).txs,
           tbl.index.zip
             (vaSeries tbl inv_dates (allocOf config) config.initial_amount (vaBase config)
               (vaGrowth config) (vaMaxM config) (vaMinM config) (feeOf config)
               (vaSt0 config) tbl.index))

/-! ### PerformanceCalculator

Statistics over Python floats.  Exact rational operations are computed
in `ℚ`; the irrational float operations (`sqrt`, fractional `**`, scipy
skewness/kurtosis/Jarque–Bera, `np.corrcoef`) are abstracted into a
`FloatOps` environment of arbitrary functions, over which every theorem
quantifies.  `Option ℚ` models a float that may be `NaN` (pandas `std`
with `ddof=1` of a length-≤1 series), with `none` = `NaN`; `NaN`
propagates through arithmetic and compares unequal to `0`, exactly as
the guards in the source behave on it. -/

structure FloatOps where
  sqrtQ : ℚ → ℚ
  powQ : ℚ → ℚ → ℚ
  skewQ : List ℚ → ℚ
  kurtQ : List ℚ → ℚ
  jbQ : List ℚ → ℚ
  jbPQ : List ℚ → ℚ
  corrQ : List ℚ → List ℚ → ℚ

/-- A concrete environment (used only to instantiate witnesses). -/
def defaultOps : FloatOps :=
  ⟨fun _ => 0, fun _ _ => 0, fun _ => 0, fun _ => 0, fun _ => 0, fun _ => 0,
   fun _ _ => 0⟩

/-- A possibly-`NaN` float as a metric value. -/
def mnum : Option ℚ → MVal
  | some q => .num q
  | none => .nan

/-- `dict.get(key, default)` on a metric dict. -/
def mvLookupD (m : List (String × MVal)) (key : String) (dflt : MVal) : MVal :=
  ((m.find? (fun p => p.1 = key)).map Prod.snd).getD dflt

def meanQ (xs : List ℚ) : ℚ := xs.sum / xs.length

/-- Sample variance (`ddof = 1`, the pandas `std`/`np.cov` convention). -/
def sampleVarQ (xs : List ℚ) : ℚ :=
  (xs.map (fun x => (x - meanQ xs) ^ 2)).sum / (xs.length - 1 : ℚ)

/-- Pandas `Series.std()`: `NaN` (`none`) on fewer than two points,
else the square root of the sample variance. -/
def sampleStd (ops : FloatOps) (xs : List ℚ) : Option ℚ :=
  if xs.length ≤ 1 then none else some (ops.sqrtQ (sampleVarQ xs))

/-- Population variance (`np.var`, `ddof = 0`). -/
def popVarQ (xs : List ℚ) : ℚ :=
  (xs.map (fun x => (x - meanQ xs) ^ 2)).sum / (xs.length : ℚ)

/-- Sample covariance (`np.cov(x, y)[0][1]`, `ddof = 1`): `NaN` on a
single observation. -/
def sampleCov (xs ys : List ℚ) : Option ℚ :=
  if xs.length ≤ 1 ∨ ys.length ≤ 1 then none
  else some (((xs.zip ys).map
    (fun p => (p.1 - meanQ xs) * (p.2 - meanQ ys))).sum / (xs.length - 1 : ℚ))

/-- `values.pct_change().dropna()`.  (A zero predecessor gives a float
`inf` in pandas; `ℚ` division by zero gives `0`.  No claim exercises a
zero portfolio value.) -/
def pctChange (values : List ℚ) : List ℚ :=
  values.zipWith (fun prev cur => cur / prev - 1) values.tail

/-- `values[-1] / values[0] - 1`. -/
def totalReturnQ (values : List ℚ) : ℚ := values.getLastD 0 / values.headD 0 - 1

/-- `PerformanceCalculator._calculate_annualized_return`. -/
def annualizedReturnQ (ops : FloatOps) (series : List (Date × ℚ)) : ℚ :=
  if series.length < 2 then 0
  else
    let total_return := totalReturnQ (series.map Prod.snd)
    let years : ℚ :=
      (((series.getLastD (⟨0, 0, 0⟩, 0)).1.toDays : ℤ)
        - ((series.headD (⟨0, 0, 0⟩, 0)).1.toDays : ℤ)) / (1461 / 4 : ℚ)
    if years ≤ 0 then 0
    else ops.powQ (1 + total_return) (1 / years) - 1

/-- Expanding-maximum drawdowns `(v − runmax) / runmax`, seeded with
the first value as running maximum. -/
def drawdownList (m : ℚ) : List ℚ → List ℚ
  | [] => []
  | v :: vs => ((v - max m v) / max m v) :: drawdownList (max m v) vs

/-- `PerformanceCalculator._calculate_max_drawdown` (the first drawdown
is always `0`, so folding `min` from `0` is the series minimum). -/
def maxDrawdownQ (values : List ℚ) : ℚ :=
  if values.length < 2 then 0
  else (drawdownList (values.headD 0) values).foldl min 0

/-- `PerformanceCalculator._calculate_downside_deviation` with the
default `target_return = 0`: `0` if there are no negative returns, else
the (possibly-`NaN`) sample std of the negative returns times √252. -/
def downsideDeviationQ (ops : FloatOps) (returns : List ℚ) : Option ℚ :=
  let ds := returns.filter (fun r => r < 0)
  if ds.length = 0 then some 0
  else (sampleStd ops ds).map (fun s => s * ops.sqrtQ 252)

/-- `PerformanceCalculator._calculate_sharpe_ratio`: `0` on an empty
return series, `0` when the excess-return std equals 0, otherwise
`mean / std × √252`; a `NaN` std falls through the `== 0` guard and
poisons the quotient. -/
def sharpeRatioQ (ops : FloatOps) (returns : List ℚ) (risk_free_rate : ℚ) : Option ℚ :=
  if returns.length = 0 then some 0
  else
    let excess := returns.map (fun r => r - risk_free_rate / 252)
    match sampleStd ops excess with
    | none => none
    | some s => if s = 0 then some 0 else some (meanQ excess / s * ops.sqrtQ 252)

/-- `PerformanceCalculator._calculate_sortino_ratio` (the
`downside_deviation` argument is supplied by the caller): `0` on an
empty series or a zero deviation; a `NaN` deviation falls through the
`== 0` guard and poisons the quotient. -/
def sortinoRatioQ (ops : FloatOps) (returns : List ℚ) (risk_free_rate : ℚ)
    (downside_deviation : Option ℚ) : Option ℚ :=
  if returns.length = 0 then some 0
  else
    match downside_deviation with
    | none => none
    | some d =>
      if d = 0 then some 0
      else some (meanQ (returns.map (fun r => r - risk_free_rate / 252)) / d * ops.sqrtQ 252)

/-- The `calmar_ratio` expression of `calculate_performance` line 53:
`annualized_return / abs(max_drawdown) if max_drawdown != 0 else 0`. -/
def calmarRatioQ (annualized_return max_drawdown : ℚ) : ℚ :=
  if max_drawdown ≠ 0 then annualized_return / |max_drawdown| else 0

/-- The `information_ratio` expression of
`_calculate_benchmark_metrics` line 242:
`excess_return / tracking_error if tracking_error != 0 else 0`; a `NaN`
tracking error satisfies `!= 0` and poisons the quotient. -/
def informationRatioQ (excess_return : ℚ) (tracking_error : Option ℚ) : Option ℚ :=
  match tracking_error with
  | none => none
  | some t => if t ≠ 0 then some (excess_return / t) else some 0

/-- `PerformanceCalculator._calculate_win_rate`. -/
def winRateQ (returns : List ℚ) : ℚ :=
  if returns.length = 0 then 0
  else ((returns.filter (fun r => r > 0)).length : ℚ) / (returns.length : ℚ)

/-- `PerformanceCalculator._calculate_profit_loss_ratio` (can be the
float `inf` when no losing day exists). -/
def profitLossRatioQ (returns : List ℚ) : MVal :=
  if returns.length = 0 then .num 0
  else
    let pos := returns.filter (fun r => r > 0)
    let neg := returns.filter (fun r => r < 0)
    if neg.length = 0 then .inf
    else
      let avg_profit := if pos.length > 0 then meanQ pos else 0
      let avg_loss := |meanQ neg|
      if avg_loss > 0 then .num (avg_profit / avg_loss) else .num 0

/-- `np.percentile(xs, p)` with the default linear interpolation. -/
def percentileQ (xs : List ℚ) (p : ℚ) : ℚ :=
  let sorted := xs.mergeSort (fun a b => a ≤ b)
  let n := sorted.length
  let rank := p / 100 * ((n : ℚ) - 1)
  let i := (⌊rank⌋).toNat
  if i + 1 < n then
    sorted.getD i 0 + (rank - (i : ℚ)) * (sorted.getD (i + 1) 0 - sorted.getD i 0)
  else sorted.getLastD 0

/-- `PerformanceCalculator._calculate_var` at 95 % confidence. -/
def varQ (returns : List ℚ) : ℚ :=
  if returns.length = 0 then 0 else percentileQ returns 5

/-- `PerformanceCalculator._calculate_cvar` at 95 % confidence. -/
def cvarQ (returns : List ℚ) : ℚ :=
  if returns.length = 0 then 0
  else
    let v := varQ returns
    let tail := returns.filter (fun r => r ≤ v)
    if tail.length = 0 then v else meanQ tail

/-- `PerformanceCalculator._calculate_benchmark_metrics`: inner-join
the two series on dates (`pd.concat(axis=1).dropna()`), require at
least two overlapping points, then β, α, tracking error, information
ratio and correlation.  Note `benchmark_return` and the portfolio
return use the *unaligned* full series, `np.cov` uses `ddof = 1` but
`np.var` uses `ddof = 0`, both as in numpy. -/
def benchmarkMetricsQ (ops : FloatOps) (portfolio benchmark : List (Date × ℚ))
    (risk_free_rate : ℚ) : List (String × MVal) :=
  let aligned := portfolio.filterMap (fun pv =>
    ((benchmark.find? (fun bv => bv.1 = pv.1)).map (fun bv => (pv.1, pv.2, bv.2))))
  if aligned.length < 2 then []
  else
    let portfolio_returns := pctChange (aligned.map (fun t => t.2.1))
    let benchmark_returns := pctChange (aligned.map (fun t => t.2.2))
    let benchmark_return := totalReturnQ (benchmark.map Prod.snd)
    let portfolio_return := totalReturnQ (portfolio.map Prod.snd)
    let excess_return := portfolio_return - benchmark_return
    let covariance := sampleCov portfolio_returns benchmark_returns
    let benchmark_variance := popVarQ benchmark_returns
    let beta : Option ℚ :=
      if benchmark_variance ≠ 0 then covariance.map (fun c => c / benchmark_variance)
      else some 0
    let alpha : Option ℚ :=
      beta.map (fun b => excess_return - b * (benchmark_return - risk_free_rate))
    let tracking_error : Option ℚ :=
      (sampleStd ops (portfolio_returns.zipWith (fun a b => a - b) benchmark_returns)).map
        (fun s => s * ops.sqrtQ 252)
    [("benchmark_return", .num benchmark_return),
     ("excess_return", .num excess_return),
     ("alpha", mnum alpha),
     ("beta", mnum beta),
     ("tracking_error", mnum tracking_error),
     ("information_ratio", mnum (informationRatioQ excess_return tracking_error)),
     ("correlation", .num (ops.corrQ portfolio_returns benchmark_returns))]

/-- `PerformanceCalculator._calculate_statistical_metrics` (scipy
statistics through the abstract environment). -/
def statisticalMetricsQ (ops : FloatOps) (returns : List ℚ) : List (String × MVal) :=
  if returns.length = 0 then []
  else
    [("skewness", .num (ops.skewQ returns)),
     ("kurtosis", .num (ops.kurtQ returns)),
     ("jarque_bera", .num (ops.jbQ returns)),
     ("jarque_bera_pvalue", .num (ops.jbPQ returns)),
     ("normality_test", .bool (decide (ops.jbPQ returns > 5 / 100)))]

/-- `PerformanceCalculator._empty_performance_metrics`: all numeric
fields 0 plus an `error` string — there is no `insufficient_data`
boolean key. -/
def emptyPerformanceMetrics : List (String × MVal) :=
  [("total_return", .num 0),
   ("annualized_return", .num 0),
   ("volatility", .num 0),
   ("max_drawdown", .num 0),
   ("sharpe_ratio", .num 0),
   ("sortino_ratio", .num 0),
   ("win_rate", .num 0),
   ("alpha", .num 0),
   ("beta", .num 0),
   ("error", .str "Insufficient data")]

/-- Largest element (`Series.max()`, callers guarantee nonempty). -/
def listMaxQ (xs : List ℚ) : ℚ := xs.foldl max (xs.headD 0)

/-- Smallest element (`Series.min()`). -/
def listMinQ (xs : List ℚ) : ℚ := xs.foldl min (xs.headD 0)

/-- `PerformanceCalculator.calculate_performance`: fewer than two data
points short-circuits to the empty-metrics dict and never raises
(everything is additionally wrapped in a `try/except` that also
returns the empty dict); otherwise the full metric dictionary. -/
def calculatePerformance (ops : FloatOps) (series : List (Date × ℚ))
    (benchmark : Option (List (Date × ℚ))) (risk_free_rate : ℚ) :
    List (String × MVal) :=
  if series.length < 2 then emptyPerformanceMetrics
  else
    let values := series.map Prod.snd
    let returns := pctChange values
    let total_return := totalReturnQ values
    let annualized_return := annualizedReturnQ ops series
    let max_drawdown := maxDrawdownQ values
    let downside_deviation := downsideDeviationQ ops returns
    let bench := match benchmark with
      | some b => if b.length > 0 then benchmarkMetricsQ ops series b risk_free_rate else []
      | none => []
    let statm := statisticalMetricsQ ops returns
    [("total_return", .num total_return),
     ("annualized_return", .num annualized_return),
     ("cumulative_return", .num total_return),
     ("volatility", mnum ((sampleStd ops returns).map (fun s => s * ops.sqrtQ 252))),
     ("max_drawdown", .num max_drawdown),
     ("downside_deviation", mnum downside_deviation),
     ("var_95", .num (varQ returns)),
     ("cvar_95", .num (cvarQ returns)),
     ("sharpe_ratio", mnum (sharpeRatioQ ops returns risk_free_rate)),
     ("sortino_ratio", mnum (sortinoRatioQ ops returns risk_free_rate downside_deviation)),
     ("calmar_ratio", .num (calmarRatioQ annualized_return max_drawdown)),
     ("information_ratio", mvLookupD bench "information_ratio" (.num 0)),
     ("win_rate", .num (winRateQ returns)),
     ("profit_loss_ratio", profitLossRatioQ returns),
     ("best_day", .num (listMaxQ returns)),
     ("worst_day", .num (listMinQ returns)),
     ("positive_days", .num ((returns.filter (fun r => r > 0)).length : ℚ)),
     ("negative_days", .num ((returns.filter (fun r => r < 0)).length : ℚ)),
     ("benchmark_return", mvLookupD bench "benchmark_return" (.num 0)),
     ("excess_return", mvLookupD bench "excess_return" (.num 0)),
     ("alpha", mvLookupD bench "alpha" (.num 0)),
     ("beta", mvLookupD bench "beta" (.num 0)),
     ("tracking_error", mvLookupD bench "tracking_error" (.num 0)),
     ("skewness", mvLookupD statm "skewness" (.num 0)),
     ("kurtosis", mvLookupD statm "kurtosis" (.num 0)),
     ("jarque_bera", mvLookupD statm "jarque_bera" (.num 0)),
     ("start_date", .str (series.headD (⟨0, 0, 0⟩, 0)).1.iso),
     ("end_date", .str (series.getLastD (⟨0, 0, 0⟩, 0)).1.iso),
     ("total_days", .num (series.length : ℚ)),
     ("trading_days", .num (returns.length : ℚ))]

/-! ### BacktestEngine -/

/-- `BacktestEngine._validate_backtest_config`, checks in source order:
dates, five-year span (`(end - start).days > 365 * 5`), positive
initial amount, nonempty fund codes, declared frequency, and finally
`strategy_params['strategy_type']` must name a registered strategy. -/
def validateBacktestConfig (c : BacktestConfig) : Except String Unit :=
  if ¬ c.start_date.lt c.end_date then .error "开始日期必须早于结束日期"
  else if ((c.end_date.toDays : ℤ) - (c.start_date.toDays : ℤ)) > 365 * 5 then
    .error "回测时间范围不能超过5年"
  else if c.initial_amount ≤ 0 then .error "初始金额必须大于0"
  else if c.fund_codes.isEmpty then .error "必须指定至少一个基金代码"
  else if ¬ (c.investment_frequency = "daily" ∨ c.investment_frequency = "weekly" ∨
             c.investment_frequency = "monthly") then
    .error "投资频率必须是: [daily, weekly, monthly]"
  else if ¬ (c.strategy_params.strategy_type = some "regular_investment" ∨
             c.strategy_params.strategy_type = some "value_averaging") then
    .error ("不支持的策略类型: " ++ (c.strategy_params.strategy_type.getD "None"))
  else .ok ()

/-- One frequency step of `_generate_investment_dates`.  The monthly
step is `date.replace(month=month+1)` (or the December year rollover)
and raises (`none`) exactly when the same day-of-month does not exist
in the target month.  An unknown frequency never advances — the Python
loop would hang; the embedding's fuel turns that into an error. -/
def freqStep (freq : String) (d : Date) : Option Date :=
  if freq = "daily" then some d.nextDay
  else if freq = "weekly" then some (d.addDays 7)
  else if freq = "monthly" then d.nextMonthSameDay
  else some d

/-- The candidate-date loop of `_generate_investment_dates`: append the
current date when it is a weekday (`weekday() < 5`), then advance by
the frequency step.  `fuel` bounds the iteration count (each real step
advances at least one day, so the day-span bound used by
`generateInvestmentDates` suffices); exhausted fuel and an invalid
monthly `replace` surface as errors. -/
def genDates (freq : String) (end_date : Date) : ℕ → Date → Except String (List Date)
  | 0, _ => .error "fuel exhausted"
  | fuel + 1, current =>
    if current.le end_date then
      match freqStep freq current with
      | none => .error "ValueError: day is out of range for month"
      | some next =>
        (genDates freq end_date fuel next).map
          (fun rest => (if current.weekday < 5 then [current] else []) ++ rest)
    else .ok []

/-- `BacktestEngine._generate_investment_dates`. -/
def generateInvestmentDates (c : BacktestConfig) : Except String (List Date) :=
  genDates c.investment_frequency c.end_date
    (c.end_date.toDays + 2 - c.start_date.toDays) c.start_date

/-- The raw stepping chain (every candidate, weekends included) — the
declarative companion of `genDates` used to state claim C7. -/
def stepChain (freq : String) (end_date : Date) : ℕ → Date → Except String (List Date)
  | 0, _ => .error "fuel exhausted"
  | fuel + 1, current =>
    if current.le end_date then
      match freqStep freq current with
      | none => .error "ValueError: day is out of range for month"
      | some next => (stepChain freq end_date fuel next).map (fun rest => current :: rest)
    else .ok []

/-- Aggregate results assembled by `BacktestEngine._execute_backtest`
that the claims mention. -/
structure EngineResult where
  total_invested : ℚ
  total_value : ℚ
  total_return : MVal
  transactions : List Transaction
  performance_series : List (Date × ℚ)

/-- `BacktestEngine._execute_backtest`: dispatch on
`strategy_params.get('strategy_type', 'regular_investment')`, generate
the investment dates, run the strategy, compute the metrics
(`total_return = metrics['total_return']`), and total the transaction
amounts (`total_invested = Σ tx['amount']`).  The benchmark argument
the source passes (`historical_data`, a DataFrame standing in for a
benchmark series) is abstracted as `benchQ`; no extracted field depends
on it. -/
def executeBacktestModel (ops : FloatOps) (benchQ : Option (List (Date × ℚ)))
    (c : BacktestConfig) (tbl : NavTable) : Except String EngineResult :=
  let strategy_type := c.strategy_params.strategy_type.getD "regular_investment"
  if strategy_type ≠ "regular_investment" ∧ strategy_type ≠ "value_averaging" then
    .error ("未找到策略: " ++ strategy_type)
  else
    match generateInvestmentDates c with
    | .error e => .error e
    | .ok investment_dates =>
      let run := if strategy_type = "regular_investment"
        then riExecute c tbl investment_dates
        else vaExecute c tbl investment_dates
      match run with
      | .error e => .error e
      | .ok (transactions, portfolio_values) =>
        let metrics := calculatePerformance ops portfolio_values benchQ (3 / 100)
        .ok { total_invested := (transactions.map (fun t => t.amount)).sum,
              total_value := (portfolio_values.map Prod.snd).getLastD 0,
              total_return := mvLookupD metrics "total_return" (.num 0),
              transactions := transactions,
              performance_series := portfolio_values }

/-- The validation-then-fetch-then-execute spine of
`BacktestEngine.run_backtest` (steps 3–5): config validation happens
strictly before the NAV fetch, whose outcome is the `navFetch`
argument. -/
def runBacktestModel (ops : FloatOps) (benchQ : Option (List (Date × ℚ)))
    (c : BacktestConfig) (navFetch : Except String NavTable) :
    Except String EngineResult :=
  match validateBacktestConfig c with
  | .error e => .error e
  | .ok _ =>
    match navFetch with
    | .error e => .error e
    | .ok tbl => executeBacktestModel ops benchQ c tbl

/-! ### Helper lemmas: the holdings dictionary -/

lemma holdingsGet_nil (f : String) : holdingsGet [] f = 0 := rfl

lemma holdingsGet_cons (p : String × ℚ) (h : List (String × ℚ)) (f : String) :
    holdingsGet (p :: h) f = if p.1 = f then p.2 else holdingsGet h f := by
  by_cases hp : p.1 = f <;> simp [holdingsGet, List.find?_cons, hp]

lemma holdingsGet_map_overwrite (t : List (String × ℚ)) (f g : String) (v : ℚ)
    (hfg : g ≠ f) :
    holdingsGet (t.map (fun p => if p.1 = f then (f, v) else p)) g = holdingsGet t g := by
  induction t with
  | nil => rfl
  | cons p t ih =>
    by_cases hp : p.1 = f
    · simp [hp, holdingsGet_cons, Ne.symm hfg, ih, hfg]
    · simp [hp, holdingsGet_cons, ih]

lemma holdingsGet_append_single_other (h : List (String × ℚ)) (f g : String) (v : ℚ)
    (hfg : g ≠ f) : holdingsGet (h ++ [(f, v)]) g = holdingsGet h g := by
  induction h with
  | nil => simp [holdingsGet_cons, Ne.symm hfg, holdingsGet_nil]
  | cons p t ih =>
    by_cases hpg : p.1 = g <;> simp [holdingsGet_cons, hpg, ih]

lemma holdingsGet_setKey_self (h : List (String × ℚ)) (f : String) (v : ℚ) :
    holdingsGet (setKey h f v) f = v := by
  unfold setKey
  split
  case isTrue hk =>
    induction h with
    | nil => simp [hasKey] at hk
    | cons p t ih =>
      by_cases hp : p.1 = f
      · simp [hp, holdingsGet_cons]
      · simp only [List.map_cons, if_neg hp, holdingsGet_cons, hp, if_false]
        exact ih (by simpa [hasKey, hp] using hk)
  case isFalse hk =>
    induction h with
    | nil => simp [holdingsGet_cons]
    | cons p t ih =>
      have hp : p.1 ≠ f := by
        intro hc; exact hk (by simp [hasKey, hc])
      simp only [List.cons_append, holdingsGet_cons, hp, if_false]
      exact ih (by intro hc; exact hk (by simp [hasKey] at hc ⊢; exact Or.inr hc))

lemma holdingsGet_setKey_other (h : List (String × ℚ)) (f g : String) (v : ℚ)
    (hfg : g ≠ f) : holdingsGet (setKey h f v) g = holdingsGet h g := by
  unfold setKey
  split
  · exact holdingsGet_map_overwrite h f g v hfg
  · exact holdingsGet_append_single_other h f g v hfg

/-! ### Helper lemmas: holdings stay nonnegative -/

/-- All holdings (including absent funds, read as 0) are nonnegative. -/
def nonnegHoldings (h : List (String × ℚ)) : Prop := ∀ f, 0 ≤ holdingsGet h f

lemma nonnegHoldings_nil : nonnegHoldings [] := fun f => by
  simp [holdingsGet_nil]

lemma riBuyLeg_nonneg (tbl : NavTable) (d : Date) (amount fee : ℚ)
    (st : PState) (p : String × ℚ)
    (hamt : 0 ≤ amount) (hfee : fee ≤ 1) (H : nonnegHoldings st.holdings) :
    nonnegHoldings (riBuyLeg tbl d amount fee st p).holdings := by
  unfold riBuyLeg
  split
  case isTrue hcond =>
    cases he : tbl.entry d p.1 with
    | none => simpa [he] using H
    | some nav =>
      simp only [he]
      split
      case isTrue hnav =>
        split
        case isTrue hcash =>
          intro f
          by_cases hf : f = p.1
          · subst hf
            simp only [holdingsGet_setKey_self]
            have hsh : 0 ≤ amount * p.2 * (1 - fee) / nav :=
              div_nonneg (mul_nonneg (mul_nonneg hamt (le_of_lt hcond.1))
                (by linarith)) (le_of_lt hnav)
            have hh := H p.1
            linarith
          · simpa [holdingsGet_setKey_other _ _ _ _ hf] using H f
        case isFalse _ => exact H
      case isFalse _ => exact H
  case isFalse _ => exact H

lemma vaBuyLeg_nonneg (tbl : NavTable) (d : Date) (amt fee : ℚ)
    (st : VState) (p : String × ℚ)
    (hamt : 0 ≤ amt) (hfee : fee ≤ 1) (H : nonnegHoldings st.holdings) :
    nonnegHoldings (vaBuyLeg tbl d amt fee st p).holdings := by
  unfold vaBuyLeg
  split
  case isTrue hcond =>
    cases he : tbl.entry d p.1 with
    | none => simpa [he] using H
    | some nav =>
      simp only [he]
      split
      case isTrue hnav =>
        intro f
        by_cases hf : f = p.1
        · subst hf
          simp only [holdingsGet_setKey_self]
          have hsh : 0 ≤ amt * p.2 * (1 - fee) / nav :=
            div_nonneg (mul_nonneg (mul_nonneg hamt (le_of_lt hcond.1))
              (by linarith)) (le_of_lt hnav)
          have hh := H p.1
          linarith
        · simpa [holdingsGet_setKey_other _ _ _ _ hf] using H f
      case isFalse _ => exact H
  case isFalse _ => exact H

lemma vaSellLeg_nonneg (tbl : NavTable) (d : Date) (sell_amount fee : ℚ)
    (st : VState) (p : String × ℚ) (H : nonnegHoldings st.holdings) :
    nonnegHoldings (vaSellLeg tbl d sell_amount fee st p).holdings := by
  unfold vaSellLeg
  split
  case isTrue hcond =>
    cases he : tbl.entry d p.1 with
    | none => simpa [he] using H
    | some nav =>
      simp only [he]
      split
      case isTrue hnav =>
        split
        case isTrue hsell =>
          intro f
          by_cases hf : f = p.1
          · subst hf
            simp only [holdingsGet_setKey_self]
            linarith
          · simpa [holdingsGet_setKey_other _ _ _ _ hf] using H f
        case isFalse _ => exact H
      case isFalse _ => exact H
  case isFalse _ => exact H

lemma foldl_riBuyLeg_nonneg (tbl : NavTable) (d : Date) (amount fee : ℚ)
    (hamt : 0 ≤ amount) (hfee : fee ≤ 1) :
    ∀ (alloc : List (String × ℚ)) (st : PState), nonnegHoldings st.holdings →
      nonnegHoldings (alloc.foldl (riBuyLeg tbl d amount fee) st).holdings := by
  intro alloc
  induction alloc with
  | nil => intro st H; exact H
  | cons p t ih =>
    intro st H
    exact ih _ (riBuyLeg_nonneg tbl d amount fee st p hamt hfee H)

lemma foldl_vaBuyLeg_nonneg (tbl : NavTable) (d : Date) (amt fee : ℚ)
    (hamt : 0 ≤ amt) (hfee : fee ≤ 1) :
    ∀ (alloc : List (String × ℚ)) (st : VState), nonnegHoldings st.holdings →
      nonnegHoldings (alloc.foldl (vaBuyLeg tbl d amt fee) st).holdings := by
  intro alloc
  induction alloc with
  | nil => intro st H; exact H
  | cons p t ih =>
    intro st H
    exact ih _ (vaBuyLeg_nonneg tbl d amt fee st p hamt hfee H)

lemma foldl_vaSellLeg_nonneg (tbl : NavTable) (d : Date) (sell_amount fee : ℚ) :
    ∀ (alloc : List (String × ℚ)) (st : VState), nonnegHoldings st.holdings →
      nonnegHoldings (alloc.foldl (vaSellLeg tbl d sell_amount fee) st).holdings := by
  intro alloc
  induction alloc with
  | nil => intro st H; exact H
  | cons p t ih =>
    intro st H
    exact ih _ (vaSellLeg_nonneg tbl d sell_amount fee st p H)

lemma riTradeDay_nonneg (tbl : NavTable) (inv_dates : List Date)
    (alloc : List (String × ℚ)) (amount fee : ℚ) (st : PState) (d : Date)
    (hamt : 0 ≤ amount) (hfee : fee ≤ 1) (H : nonnegHoldings st.holdings) :
    nonnegHoldings (riTradeDay tbl inv_dates alloc amount fee st d).holdings := by
  unfold riTradeDay
  split
  · exact foldl_riBuyLeg_nonneg tbl d amount fee hamt hfee alloc st H
  · exact H

lemma vaTradeDay_nonneg (tbl : NavTable) (inv_dates : List Date)
    (alloc : List (String × ℚ)) (initial base g maxM minM fee : ℚ)
    (st : VState) (d : Date)
    (hbase : 0 < base) (hmax : 0 < maxM) (hfee : fee ≤ 1)
    (H : nonnegHoldings st.holdings) :
    nonnegHoldings
      (vaTradeDay tbl inv_dates alloc initial base g maxM minM fee st d).holdings := by
  simp only [vaTradeDay]
  split
  case isTrue _ =>
    split
    case isTrue hreq =>
      split
      case isTrue _ =>
        refine foldl_vaBuyLeg_nonneg tbl d _ fee ?_ hfee alloc _ H
        exact le_of_lt (lt_min (mul_pos hbase hmax) (lt_max_of_lt_right hreq))
      case isFalse _ => exact H
    case isFalse _ =>
      split
      case isTrue _ =>
        split
        case isTrue _ => exact foldl_vaSellLeg_nonneg tbl d _ fee alloc _ H
        case isFalse _ => exact H
      case isFalse _ => exact H
  case isFalse _ => exact H

/-! ### Helper lemmas: facts recovered from parameter validation -/

lemma riValidateParams_facts (p : StrategyParams) (h : riValidateParams p = true) :
    0 < p.investment_amount.getD 0 ∧ 0 ≤ p.fee_rate.getD 0 ∧ p.fee_rate.getD 0 < 1 := by
  unfold riValidateParams baseValidateParams riGetRequiredParams at h
  split_ifs at h with h1 h2 h3
  any_goals cases h
  push_neg at h2 h3
  exact ⟨h2, h3.1, h3.2⟩

lemma riValidateParams_fee_exec (p : StrategyParams) (h : riValidateParams p = true) :
    0 ≤ p.fee_rate.getD (1/1000) ∧ p.fee_rate.getD (1/1000) ≤ 1 := by
  rcases riValidateParams_facts p h with ⟨_, hf0, hf1⟩
  cases hv : p.fee_rate with
  | none => norm_num
  | some v =>
    simp only [hv, Option.getD_some] at hf0 hf1 ⊢
    exact ⟨hf0, le_of_lt hf1⟩

lemma vaValidateParams_facts (p : StrategyParams) (h : vaValidateParams p = true) :
    0 < p.base_investment.getD 0 ∧
    0 < p.max_investment_multiplier.getD 1 ∧
    0 < p.min_investment_multiplier.getD 1 ∧
    p.min_investment_multiplier.getD 1 < p.max_investment_multiplier.getD 1 := by
  unfold vaValidateParams baseValidateParams vaGetRequiredParams at h
  split_ifs at h with h1 h2 h3 h4 h5
  any_goals cases h
  push_neg at h2 h4 h5
  exact ⟨h2, h4.1, h4.2, h5⟩

lemma vaValidateParams_base_exec (p : StrategyParams) (h : vaValidateParams p = true) :
    0 < p.base_investment.getD 0 :=
  (vaValidateParams_facts p h).1

lemma vaValidateParams_max_exec (p : StrategyParams) (h : vaValidateParams p = true) :
    0 < p.max_investment_multiplier.getD 3 := by
  have hm := (vaValidateParams_facts p h).2.1
  cases hv : p.max_investment_multiplier with
  | none => norm_num
  | some v => simpa [hv] using (by simpa [hv] using hm)

/-! ### Helper lemmas: whole-run invariants -/

lemma foldl_riTradeDay_nonneg (tbl : NavTable) (inv_dates : List Date)
    (alloc : List (String × ℚ)) (amount fee : ℚ)
    (hamt : 0 ≤ amount) (hfee : fee ≤ 1) :
    ∀ (days : List Date) (st : PState), nonnegHoldings st.holdings →
      nonnegHoldings ((days.foldl (riTradeDay tbl inv_dates alloc amount fee) st)).holdings := by
  intro days
  induction days with
  | nil => intro st H; exact H
  | cons d ds ih =>
    intro st H
    exact ih _ (riTradeDay_nonneg tbl inv_dates alloc amount fee st d hamt hfee H)

lemma foldl_vaTradeDay_nonneg (tbl : NavTable) (inv_dates : List Date)
    (alloc : List (String × ℚ)) (initial base g maxM minM fee : ℚ)
    (hbase : 0 < base) (hmax : 0 < maxM) (hfee : fee ≤ 1) :
    ∀ (days : List Date) (st : VState), nonnegHoldings st.holdings →
      nonnegHoldings
        ((days.foldl (vaTradeDay tbl inv_dates alloc initial base g maxM minM fee) st)).holdings := by
  intro days
  induction days with
  | nil => intro st H; exact H
  | cons d ds ih =>
    intro st H
    exact ih _ (vaTradeDay_nonneg tbl inv_dates alloc initial base g maxM minM fee st d
      hbase hmax hfee H)

/-! ### Helper lemmas: the recorded value series -/

lemma riSeries_length (tbl : NavTable) (inv_dates : List Date)
    (alloc : List (String × ℚ)) (amount fee : ℚ) :
    ∀ (ds : List Date) (st : PState),
      (riSeries tbl inv_dates alloc amount fee st ds).length = ds.length := by
  intro ds
  induction ds with
  | nil => intro st; rfl
  | cons d t ih => intro st; simp [riSeries, ih]

lemma vaSeries_length (tbl : NavTable) (inv_dates : List Date)
    (alloc : List (String × ℚ)) (initial base g maxM minM fee : ℚ) :
    ∀ (ds : List Date) (st : VState),
      (vaSeries tbl inv_dates alloc initial base g maxM minM fee st ds).length = ds.length := by
  intro ds
  induction ds with
  | nil => intro st; rfl
  | cons d t ih => intro st; simp [vaSeries, ih]

/-- The `i`-th recorded value of the regular-investment loop is the
portfolio value of the state *after* the trades of days `0..i`. -/
lemma riSeries_getD (tbl : NavTable) (inv_dates : List Date)
    (alloc : List (String × ℚ)) (amount fee : ℚ) :
    ∀ (ds : List Date) (st : PState) (i : ℕ), i < ds.length →
      (riSeries tbl inv_dates alloc amount fee st ds).getD i 0 =
        ((ds.take (i + 1)).foldl (riTradeDay tbl inv_dates alloc amount fee) st).cash +
          calcPortfolioValue
            ((ds.take (i + 1)).foldl (riTradeDay tbl inv_dates alloc amount fee) st).holdings
            tbl (ds.getD i ⟨0, 0, 0⟩) := by
  intro ds
  induction ds with
  | nil => intro st i hi; cases hi
  | cons d t ih =>
    intro st i hi
    cases i with
    | zero => simp [riSeries]
    | succ j =>
      have hj : j < t.length := by simpa using Nat.lt_of_succ_lt_succ hi
      simp only [riSeries, List.take_succ_cons, List.foldl_cons, List.getD_cons_succ]
      exact ih _ j hj

/-- The `i`-th recorded value of the value-averaging loop is the
portfolio value of the state *before* the trades of day `i` (only
days `0..i-1` have settled). -/
lemma vaSeries_getD (tbl : NavTable) (inv_dates : List Date)
    (alloc : List (String × ℚ)) (initial base g maxM minM fee : ℚ) :
    ∀ (ds : List Date) (st : VState) (i : ℕ), i < ds.length →
      (vaSeries tbl inv_dates alloc initial base g maxM minM fee st ds).getD i 0 =
        ((ds.take i).foldl (vaTradeDay tbl inv_dates alloc initial base g maxM minM fee) st).cash +
          calcPortfolioValue
            ((ds.take i).foldl (vaTradeDay tbl inv_dates alloc initial base g maxM minM fee) st).holdings
            tbl (ds.getD i ⟨0, 0, 0⟩) := by
  intro ds
  induction ds with
  | nil => intro st i hi; cases hi
  | cons d t ih =>
    intro st i hi
    cases i with
    | zero => simp [vaSeries]
    | succ j =>
      have hj : j < t.length := by simpa using Nat.lt_of_succ_lt_succ hi
      simp only [vaSeries, List.take_succ_cons, List.foldl_cons, List.getD_cons_succ]
      exact ih _ j hj

/-! ### Helper lemmas: transaction provenance (dates) -/

lemma riBuyLeg_txs_mem (tbl : NavTable) (d : Date) (amount fee : ℚ)
    (st : PState) (p : String × ℚ) (t : Transaction)
    (ht : t ∈ (riBuyLeg tbl d amount fee st p).txs) :
    t ∈ st.txs ∨ t.txdate = d := by
  unfold riBuyLeg at ht
  repeat' split at ht
  all_goals try exact Or.inl ht
  dsimp only at ht
  split at ht
  case isTrue =>
    rcases List.mem_append.mp ht with h | h
    · exact Or.inl h
    · simp at h; subst h; exact Or.inr rfl
  case isFalse => exact Or.inl ht

lemma vaBuyLeg_txs_mem (tbl : NavTable) (d : Date) (amt fee : ℚ)
    (st : VState) (p : String × ℚ) (t : Transaction)
    (ht : t ∈ (vaBuyLeg tbl d amt fee st p).txs) :
    t ∈ st.txs ∨ t.txdate = d := by
  unfold vaBuyLeg at ht
  repeat' split at ht
  all_goals try exact Or.inl ht
  rcases List.mem_append.mp ht with h | h
  · exact Or.inl h
  · simp at h; subst h; exact Or.inr rfl

lemma vaSellLeg_txs_mem (tbl : NavTable) (d : Date) (sell_amount fee : ℚ)
    (st : VState) (p : String × ℚ) (t : Transaction)
    (ht : t ∈ (vaSellLeg tbl d sell_amount fee st p).txs) :
    t ∈ st.txs ∨ t.txdate = d := by
  unfold vaSellLeg at ht
  repeat' split at ht
  all_goals try exact Or.inl ht
  dsimp only at ht
  split at ht
  case isTrue =>
    rcases List.mem_append.mp ht with h | h
    · exact Or.inl h
    · simp at h; subst h; exact Or.inr rfl
  case isFalse => exact Or.inl ht

lemma foldl_leg_txs_mem {σ : Type} (leg : σ → (String × ℚ) → σ)
    (txsOf : σ → List Transaction) (d : Date)
    (hleg : ∀ st p t, t ∈ txsOf (leg st p) → t ∈ txsOf st ∨ t.txdate = d) :
    ∀ (alloc : List (String × ℚ)) (st : σ) (t : Transaction),
      t ∈ txsOf (alloc.foldl leg st) → t ∈ txsOf st ∨ t.txdate = d := by
  intro alloc
  induction alloc with
  | nil => intro st t ht; exact Or.inl ht
  | cons p rest ih =>
    intro st t ht
    rcases ih (leg st p) t ht with h | h
    · exact hleg st p t h
    · exact Or.inr h

lemma riTradeDay_txs_mem (tbl : NavTable) (inv_dates : List Date)
    (alloc : List (String × ℚ)) (amount fee : ℚ) (st : PState) (d : Date)
    (t : Transaction)
    (ht : t ∈ (riTradeDay tbl inv_dates alloc amount fee st d).txs) :
    t ∈ st.txs ∨ (t.txdate = d ∧ d ∈ inv_dates) := by
  unfold riTradeDay at ht
  split at ht
  case isTrue hd =>
    rcases foldl_leg_txs_mem (riBuyLeg tbl d amount fee) PState.txs d
      (fun st p t h => riBuyLeg_txs_mem tbl d amount fee st p t h) alloc st t ht with h | h
    · exact Or.inl h
    · exact Or.inr ⟨h, hd⟩
  case isFalse => exact Or.inl ht

lemma vaTradeDay_txs_mem (tbl : NavTable) (inv_dates : List Date)
    (alloc : List (String × ℚ)) (initial base g maxM minM fee : ℚ)
    (st : VState) (d : Date) (t : Transaction)
    (ht : t ∈ (vaTradeDay tbl inv_dates alloc initial base g maxM minM fee st d).txs) :
    t ∈ st.txs ∨ (t.txdate = d ∧ d ∈ inv_dates) := by
  simp only [vaTradeDay] at ht
  split at ht
  case isTrue hd =>
    split at ht
    case isTrue =>
      split at ht
      case isTrue =>
        rcases foldl_leg_txs_mem (vaBuyLeg tbl d _ fee) VState.txs d
          (fun st p t h => vaBuyLeg_txs_mem tbl d _ fee st p t h) alloc _ t ht with h | h
        · exact Or.inl h
        · exact Or.inr ⟨h, hd⟩
      case isFalse => exact Or.inl ht
    case isFalse =>
      split at ht
      case isTrue =>
        split at ht
        case isTrue =>
          rcases foldl_leg_txs_mem (vaSellLeg tbl d _ fee) VState.txs d
            (fun st p t h => vaSellLeg_txs_mem tbl d _ fee st p t h) alloc _ t ht with h | h
          · exact Or.inl h
          · exact Or.inr ⟨h, hd⟩
        case isFalse => exact Or.inl ht
      case isFalse => exact Or.inl ht
  case isFalse => exact Or.inl ht

lemma foldl_riTradeDay_txs_mem (tbl : NavTable) (inv_dates : List Date)
    (alloc : List (String × ℚ)) (amount fee : ℚ) :
    ∀ (days : List Date) (st : PState) (t : Transaction),
      t ∈ ((days.foldl (riTradeDay tbl inv_dates alloc amount fee) st)).txs →
      t ∈ st.txs ∨ (t.txdate ∈ days ∧ t.txdate ∈ inv_dates) := by
  intro days
  induction days with
  | nil => intro st t ht; exact Or.inl ht
  | cons d ds ih =>
    intro st t ht
    rcases ih _ t ht with h | h
    · rcases riTradeDay_txs_mem tbl inv_dates alloc amount fee st d t h with h2 | h2
      · exact Or.inl h2
      · exact Or.inr ⟨by simp [h2.1], h2.1 ▸ h2.2⟩
    · exact Or.inr ⟨List.mem_cons_of_mem d h.1, h.2⟩

lemma foldl_vaTradeDay_txs_mem (tbl : NavTable) (inv_dates : List Date)
    (alloc : List (String × ℚ)) (initial base g maxM minM fee : ℚ) :
    ∀ (days : List Date) (st : VState) (t : Transaction),
      t ∈ ((days.foldl (vaTradeDay tbl inv_dates alloc initial base g maxM minM fee) st)).txs →
      t ∈ st.txs ∨ (t.txdate ∈ days ∧ t.txdate ∈ inv_dates) := by
  intro days
  induction days with
  | nil => intro st t ht; exact Or.inl ht
  | cons d ds ih =>
    intro st t ht
    rcases ih _ t ht with h | h
    · rcases vaTradeDay_txs_mem tbl inv_dates alloc initial base g maxM minM fee st d t h with h2 | h2
      · exact Or.inl h2
      · exact Or.inr ⟨by simp [h2.1], h2.1 ▸ h2.2⟩
    · exact Or.inr ⟨List.mem_cons_of_mem d h.1, h.2⟩

/-! ### Helper lemmas: buy-leg characterization -/

/-- A fully executable regular-investment leg (positive weight, fund in
the columns, positive NAV, cash covering the pre-fee amount) buys
exactly `amount × w × (1 − fee) / nav` shares, debits `amount × w` of
cash and appends one `buy` transaction. -/
lemma riBuyLeg_spec (tbl : NavTable) (d : Date) (amount fee : ℚ)
    (st : PState) (p : String × ℚ) (nav : ℚ)
    (hw : 0 < p.2) (hcol : p.1 ∈ tbl.columns) (he : tbl.entry d p.1 = some nav)
    (hnav : 0 < nav) (hcash : st.cash ≥ amount * p.2) :
    riBuyLeg tbl d amount fee st p =
      { cash := st.cash - amount * p.2,
        holdings := setKey st.holdings p.1
          (holdingsGet st.holdings p.1 + amount * p.2 * (1 - fee) / nav),
        txs := st.txs ++ [⟨d, p.1, "buy", amount * p.2 * (1 - fee),
                           amount * p.2 * (1 - fee) / nav, nav⟩] } := by
  unfold riBuyLeg
  simp only [he]
  rw [if_pos ⟨hw, hcol⟩, if_pos (show nav > 0 from hnav), if_pos hcash]

/-- The transaction recorded by an executable value-averaging buy leg. -/
def vaBuyTx (tbl : NavTable) (d : Date) (amt fee : ℚ) (p : String × ℚ) : Transaction :=
  ⟨d, p.1, "buy", amt * p.2 * (1 - fee),
   amt * p.2 * (1 - fee) / (tbl.entry d p.1).getD 0, (tbl.entry d p.1).getD 0⟩

/-- When every allocation entry is executable (positive weight, fund in
the columns, positive non-`NaN` NAV), the value-averaging buy loop
appends exactly one `buy` transaction per entry with pre-fee leg amount
`amt × w` (so the legs total `amt × Σw`), debits
`amt × Σw` of cash, and leaves the period counter alone. -/
lemma foldl_vaBuyLeg_spec (tbl : NavTable) (d : Date) (amt fee : ℚ) :
    ∀ (alloc : List (String × ℚ)) (st : VState),
      (∀ p ∈ alloc, 0 < p.2 ∧ p.1 ∈ tbl.columns ∧
        ∃ nav, tbl.entry d p.1 = some nav ∧ 0 < nav) →
      (alloc.foldl (vaBuyLeg tbl d amt fee) st).txs
          = st.txs ++ alloc.map (vaBuyTx tbl d amt fee) ∧
        (alloc.foldl (vaBuyLeg tbl d amt fee) st).cash
          = st.cash - amt * (alloc.map Prod.snd).sum ∧
        (alloc.foldl (vaBuyLeg tbl d amt fee) st).period = st.period := by
  intro alloc
  induction alloc with
  | nil => intro st _; refine ⟨by simp, by simp, rfl⟩
  | cons p rest ih =>
    intro st hex
    obtain ⟨hw, hcol, nav, he, hnav⟩ := hex p (List.mem_cons_self p rest)
    have hleg : vaBuyLeg tbl d amt fee st p =
        { st with
          cash := st.cash - amt * p.2,
          holdings := setKey st.holdings p.1
            (holdingsGet st.holdings p.1 + amt * p.2 * (1 - fee) / nav),
          txs := st.txs ++ [vaBuyTx tbl d amt fee p] } := by
      unfold vaBuyLeg
      simp only [he]
      rw [if_pos ⟨hw, hcol⟩, if_pos (show nav > 0 from hnav)]
      simp [vaBuyTx, he]
    obtain ⟨htxs, hcash, hper⟩ := ih _ (fun q hq => hex q (List.mem_cons_of_mem p hq))
    rw [List.foldl_cons, hleg] at *
    refine ⟨?_, ?_, ?_⟩
    · rw [htxs]; simp
    · rw [hcash]; simp; ring
    · rw [hper]

/-- On a scheduled date with a positive requirement but cash short of
the clamped amount, the value-averaging day performs *no* transaction
at all (the amount is not reduced to the available cash): only the
period counter advances. -/
lemma vaTradeDay_insufficient_cash (tbl : NavTable) (inv_dates : List Date)
    (alloc : List (String × ℚ)) (initial base g maxM minM fee : ℚ)
    (st : VState) (d : Date) (hd : d ∈ inv_dates)
    (hreq : 0 < vaTargetValue initial base g (st.period + 1) -
      (st.cash + calcPortfolioValue st.holdings tbl d))
    (hcash : st.cash < min (base * maxM) (max (base * minM)
      (vaTargetValue initial base g (st.period + 1) -
        (st.cash + calcPortfolioValue st.holdings tbl d)))) :
    vaTradeDay tbl inv_dates alloc initial base g maxM minM fee st d =
      { st with period := st.period + 1 } := by
  simp only [vaTradeDay, if_pos hd]
  split
  case isTrue h1 =>
    split
    case isTrue h2 => exact absurd h2 (by simpa using not_le_of_lt hcash)
    case isFalse h2 => rfl
  case isFalse h1 => exact absurd hreq (by simpa using h1)

/-- On a scheduled date with a positive requirement and sufficient
cash, the value-averaging day runs the buy loop with the clamped amount
on the period-advanced state. -/
lemma vaTradeDay_buy (tbl : NavTable) (inv_dates : List Date)
    (alloc : List (String × ℚ)) (initial base g maxM minM fee : ℚ)
    (st : VState) (d : Date) (hd : d ∈ inv_dates)
    (hreq : 0 < vaTargetValue initial base g (st.period + 1) -
      (st.cash + calcPortfolioValue st.holdings tbl d))
    (hcash : min (base * maxM) (max (base * minM)
      (vaTargetValue initial base g (st.period + 1) -
        (st.cash + calcPortfolioValue st.holdings tbl d))) ≤ st.cash) :
    vaTradeDay tbl inv_dates alloc initial base g maxM minM fee st d =
      alloc.foldl (vaBuyLeg tbl d
        (min (base * maxM) (max (base * minM)
          (vaTargetValue initial base g (st.period + 1) -
            (st.cash + calcPortfolioValue st.holdings tbl d)))) fee)
        { st with period := st.period + 1 } := by
  simp only [vaTradeDay, if_pos hd]
  split
  case isTrue h1 => rfl
  case isFalse h1 => exact absurd hreq (by simpa using h1)

/-- On a scheduled date, the regular-investment day is the buy loop. -/
lemma riTradeDay_scheduled (tbl : NavTable) (inv_dates : List Date)
    (alloc : List (String × ℚ)) (amount fee : ℚ) (st : PState) (d : Date)
    (hd : d ∈ inv_dates) :
    riTradeDay tbl inv_dates alloc amount fee st d =
      alloc.foldl (riBuyLeg tbl d amount fee) st := by
  simp [riTradeDay, hd]

/-! ### Helper lemmas: statistics -/

lemma sum_map_sub (xs : List ℚ) (c : ℚ) :
    (xs.map (fun x => x - c)).sum = xs.sum - xs.length * c := by
  induction xs with
  | nil => simp
  | cons x t ih => simp [ih]; ring

lemma meanQ_map_sub (xs : List ℚ) (c : ℚ) (hne : xs ≠ []) :
    meanQ (xs.map (fun x => x - c)) = meanQ xs - c := by
  unfold meanQ
  rw [List.length_map, sum_map_sub]
  have hn : (xs.length : ℚ) ≠ 0 :=
    Nat.cast_ne_zero.mpr (List.length_pos.mpr hne).ne'
  field_simp

/-- The sample variance is invariant under subtracting a constant
(so the std of the excess returns equals the std of the returns). -/
lemma sampleVarQ_map_sub (xs : List ℚ) (c : ℚ) :
    sampleVarQ (xs.map (fun x => x - c)) = sampleVarQ xs := by
  cases xs with
  | nil => rfl
  | cons a t =>
    unfold sampleVarQ
    rw [List.length_map, List.map_map, meanQ_map_sub _ c (by simp)]
    have hfun : ((fun x => (x - (meanQ (a :: t) - c)) ^ 2) ∘ fun x => x - c) =
        fun x => (x - meanQ (a :: t)) ^ 2 := by
      funext x
      simp only [Function.comp_apply]
      ring
    rw [hfun]

lemma sampleStd_map_sub (ops : FloatOps) (xs : List ℚ) (c : ℚ) :
    sampleStd ops (xs.map (fun x => x - c)) = sampleStd ops xs := by
  unfold sampleStd
  rw [List.length_map, sampleVarQ_map_sub]

/-! ### Helper lemmas: the investment-date generator -/

/-- The candidate-date loop is exactly the raw stepping chain with the
weekend dates filtered out. -/
lemma genDates_eq_filter (freq : String) (endD : Date) :
    ∀ (fuel : ℕ) (current : Date),
      genDates freq endD fuel current =
        (stepChain freq endD fuel current).map
          (fun l => l.filter (fun d => decide (d.weekday < 5))) := by
  intro fuel
  induction fuel with
  | zero => intro c; rfl
  | succ n ih =>
    intro c
    simp only [genDates, stepChain]
    split
    case isTrue =>
      cases hs : freqStep freq c with
      | none => rfl
      | some next =>
        dsimp only
        rw [ih next]
        cases hX : stepChain freq endD n next with
        | error e => rfl
        | ok l =>
          simp only [Except.map, List.filter_cons]
          by_cases hw : c.weekday < 5 <;> simp [hw]
    case isFalse => rfl

/-! ### Run-state observation points -/

/-- The day-step of a regular-investment run of `config`. -/
def riStep (config : BacktestConfig) (tbl : NavTable) (inv_dates : List Date) :
    PState → Date → PState :=
  riTradeDay tbl inv_dates (allocOf config) (riAmount config) (feeOf config)

/-- The state of a regular-investment run after the first `i` trading
days have settled. -/
def riStateAfter (config : BacktestConfig) (tbl : NavTable) (inv_dates : List Date)
    (i : ℕ) : PState :=
  (tbl.index.take i).foldl (riStep config tbl inv_dates) (riSt0 config)

/-- The day-step of a value-averaging run of `config`. -/
def vaStep (config : BacktestConfig) (tbl : NavTable) (inv_dates : List Date) :
    VState → Date → VState :=
  vaTradeDay tbl inv_dates (allocOf config) config.initial_amount (vaBase config)
    (vaGrowth config) (vaMaxM config) (vaMinM config) (feeOf config)

/-- The state of a value-averaging run after the first `i` trading
days have settled. -/
def vaStateAfter (config : BacktestConfig) (tbl : NavTable) (inv_dates : List Date)
    (i : ℕ) : VState :=
  (tbl.index.take i).foldl (vaStep config tbl inv_dates) (vaSt0 config)

lemma riExecute_ok {cfg : BacktestConfig} {tbl : NavTable} {iv : List Date}
    {res : List Transaction × List (Date × ℚ)}
    (h : riExecute cfg tbl iv = .ok res) :
    riValidateParams cfg.strategy_params = true ∧ tbl.index ≠ [] ∧
    res.1 = (tbl.index.foldl (riStep cfg tbl iv) (riSt0 cfg)).txs ∧
    res.2 = tbl.index.zip (riSeries tbl iv (allocOf cfg) (riAmount cfg) (feeOf cfg)
      (riSt0 cfg) tbl.index) := by
  unfold riExecute at h
  split_ifs at h with h1 h2
  injection h with h3
  subst h3
  refine ⟨h1, ?_, rfl, rfl⟩
  intro he; exact h2 (by simp [he])

lemma vaExecute_ok {cfg : BacktestConfig} {tbl : NavTable} {iv : List Date}
    {res : List Transaction × List (Date × ℚ)}
    (h : vaExecute cfg tbl iv = .ok res) :
    vaValidateParams cfg.strategy_params = true ∧ tbl.index ≠ [] ∧
    res.1 = (tbl.index.foldl (vaStep cfg tbl iv) (vaSt0 cfg)).txs ∧
    res.2 = tbl.index.zip (vaSeries tbl iv (allocOf cfg) cfg.initial_amount (vaBase cfg)
      (vaGrowth cfg) (vaMaxM cfg) (vaMinM cfg) (feeOf cfg) (vaSt0 cfg) tbl.index) := by
  unfold vaExecute at h
  split_ifs at h with h1 h2
  injection h with h3
  subst h3
  refine ⟨h1, ?_, rfl, rfl⟩
  intro he; exact h2 (by simp [he])

/-! ### Concrete fixtures (weekday-checked 2024 dates; NAV constant 1) -/

def dMon : Date := ⟨2024, 9, 2⟩

def dTue : Date := ⟨2024, 9, 3⟩

def dWed : Date := ⟨2024, 9, 4⟩

/-- One trading day, one fund `F`, NAV 1. -/
def tblOne : NavTable := ⟨[dMon], ["F"], fun _ f => if f = "F" then some 1 else none⟩

/-- Two trading days (Monday and Wednesday — Tuesday is a data gap). -/
def tblSkip : NavTable :=
  ⟨[dMon, dWed], ["F"], fun _ f => if f = "F" then some 1 else none⟩

/-- Ten consecutive trading days for fund `000001`, NAV constant 1. -/
def daysTen : List Date :=
  [⟨2024, 9, 2⟩, ⟨2024, 9, 3⟩, ⟨2024, 9, 4⟩, ⟨2024, 9, 5⟩, ⟨2024, 9, 6⟩,
   ⟨2024, 9, 9⟩, ⟨2024, 9, 10⟩, ⟨2024, 9, 11⟩, ⟨2024, 9, 12⟩, ⟨2024, 9, 13⟩]

def tblTen : NavTable :=
  ⟨daysTen, ["000001"], fun _ f => if f = "000001" then some 1 else none⟩

/-- Valid value-averaging parameters (the validate-site multiplier
defaults `1, 1` would fail `max > min`, so they are supplied). -/
def vaParamsOk : StrategyParams :=
  { base_investment := some 1000,
    max_investment_multiplier := some 3, min_investment_multiplier := some (1/10) }

/-- As `vaParamsOk` but with a 200 % fee — accepted by
`ValueAveragingStrategy.validate_params`, which never checks the fee. -/
def vaParamsFee2 : StrategyParams := { vaParamsOk with fee_rate := some 2 }

def cfgVaFee2 : BacktestConfig := ⟨1, dMon, dMon, 2000, "monthly", vaParamsFee2, ["F"]⟩

def cfgVaPre : BacktestConfig := ⟨1, dMon, dMon, 2000, "monthly", vaParamsOk, ["F"]⟩

def cfgVaPoor : BacktestConfig := ⟨1, dMon, dMon, 500, "monthly", vaParamsOk, ["F"]⟩

/-- Scenario A of the spec: amount 1000, zero fee. -/
def riParamsA : StrategyParams := { investment_amount := some 1000, fee_rate := some 0 }

/-- Scenario B of the spec: amount 1000, 1 % fee. -/
def riParamsB : StrategyParams :=
  { investment_amount := some 1000, fee_rate := some (1/100) }

def cfgRiA : BacktestConfig :=
  ⟨1, ⟨2024, 9, 2⟩, ⟨2024, 9, 13⟩, 1000, "monthly", riParamsA, ["000001"]⟩

def cfgRiB : BacktestConfig :=
  ⟨1, ⟨2024, 9, 2⟩, ⟨2024, 9, 13⟩, 1000, "monthly", riParamsB, ["000001"]⟩

/-- A run whose only candidate date (Tuesday) is a weekday absent from
the NAV index `[Mon, Wed]`. -/
def cfgTue : BacktestConfig :=
  ⟨1, dTue, dTue, 1000, "monthly", { investment_amount := some 100, fee_rate := some 0 }, ["F"]⟩

/-- Dates, amount, fund list and frequency all valid, but no
`strategy_type` key. -/
def cfgNoType : BacktestConfig := ⟨1, dMon, dTue, 1000, "daily", {}, ["F"]⟩

/-! ### The spec's snapped schedule (for claim C7)

The following two definitions follow the *spec's words*, not the code,
and exist to be compared against `generateInvestmentDates`:
"each candidate then snapped to the nearest trading day ≤ the candidate
date present in the NAV series, and never snapped forward". -/

def specSnapLE (tbl : NavTable) (d : Date) : Option Date :=
  (tbl.index.filter (fun e => e.le d)).foldl
    (fun acc e =>
      match acc with
      | none => some e
      | some a => if a.le e then some e else some a) none

def specSnappedSchedule (c : BacktestConfig) (tbl : NavTable) : Except String (List Date) :=
  (generateInvestmentDates c).map (fun l => l.filterMap (specSnapLE tbl))

/-! ### Claims -/

/-- C10: for every params map lacking the strategy's amount key
(`investment_amount` for RegularInvestment, `base_investment` for
ValueAveraging), `validate_params` returns `False` — the missing value
is read as 0 and fails the `> 0` check — and `execute_backtest`
raises, even though `get_required_params()` is the empty list and
`get_default_params()` declares the positive default 1000 for that
key. -/
theorem C10_missing_amount_rejected :
    (∀ p : StrategyParams, p.investment_amount = none → riValidateParams p = false) ∧
    (∀ (cfg : BacktestConfig) (tbl : NavTable) (iv : List Date),
      cfg.strategy_params.investment_amount = none →
      riExecute cfg tbl iv = .error "策略参数验证失败") ∧
    riGetRequiredParams = [] ∧
    ("investment_amount", MVal.num 1000) ∈ riGetDefaultParams ∧ (0 : ℚ) < 1000 ∧
    (∀ p : StrategyParams, p.base_investment = none → vaValidateParams p = false) ∧
    (∀ (cfg : BacktestConfig) (tbl : NavTable) (iv : List Date),
      cfg.strategy_params.base_investment = none →
      vaExecute cfg tbl iv = .error "策略参数验证失败") ∧
    vaGetRequiredParams = [] ∧
    ("base_investment", MVal.num 1000) ∈ vaGetDefaultParams := by
  refine ⟨?_, ?_, rfl, by simp [riGetDefaultParams], by norm_num, ?_, ?_, rfl,
    by simp [vaGetDefaultParams]⟩
  · intro p hn
    simp [riValidateParams, hn]
  · intro cfg tbl iv hn
    have hv : riValidateParams cfg.strategy_params = false := by
      simp [riValidateParams, hn]
    simp [riExecute, hv]
  · intro p hn
    simp [vaValidateParams, hn]
  · intro cfg tbl iv hn
    have hv : vaValidateParams cfg.strategy_params = false := by
      simp [vaValidateParams, hn]
    simp [vaExecute, hv]

/-- Witness for C10 at the empty params map (the config `cfgNoType`
carries `{}` as `strategy_params`). -/
theorem C10_missing_amount_rejected_witness :
    riValidateParams {} = false ∧
    riExecute cfgNoType tblOne [dMon] = .error "策略参数验证失败" ∧
    vaValidateParams {} = false ∧
    vaExecute cfgNoType tblOne [dMon] = .error "策略参数验证失败" :=
  ⟨C10_missing_amount_rejected.1 {} rfl,
   C10_missing_amount_rejected.2.1 cfgNoType tblOne [dMon] rfl,
   C10_missing_amount_rejected.2.2.2.2.2.1 {} rfl,
   C10_missing_amount_rejected.2.2.2.2.2.2.1 cfgNoType tblOne [dMon] rfl⟩

/-- C3 (amended): a portfolio series of fewer than 2 points makes
`calculate_performance` return the empty-metrics dict without raising;
every numeric field of that dict is 0 and insufficiency is marked by
the string entry `error = "Insufficient data"` — there is **no**
`insufficient_data` boolean flag. -/
theorem C3_short_series_empty_metrics
    (ops : FloatOps) (series : List (Date × ℚ)) (bench : Option (List (Date × ℚ)))
    (rf : ℚ) (h : series.length < 2) :
    calculatePerformance ops series bench rf = emptyPerformanceMetrics ∧
    (∀ (k : String) (q : ℚ), (k, MVal.num q) ∈ emptyPerformanceMetrics → q = 0) ∧
    ("error", MVal.str "Insufficient data") ∈ emptyPerformanceMetrics ∧
    ∀ b : Bool, ("insufficient_data", MVal.bool b) ∉ emptyPerformanceMetrics := by
  refine ⟨by simp [calculatePerformance, h], ?_, by simp [emptyPerformanceMetrics], ?_⟩
  · intro k q hm
    simp [emptyPerformanceMetrics] at hm
    rcases hm with h | h | h | h | h | h | h | h | h <;> exact h.2
  · intro b
    simp [emptyPerformanceMetrics]

/-- Witness for C3 at a one-point series. -/
theorem C3_short_series_empty_metrics_witness :
    calculatePerformance defaultOps [(dMon, 5)] none (3/100) = emptyPerformanceMetrics :=
  (C3_short_series_empty_metrics defaultOps [(dMon, 5)] none (3/100) (by simp)).1

/-- C3 counterexample: on a one-point series the returned dict carries
`error = "Insufficient data"` and **no** `insufficient_data` boolean
set to `true`, contradicting the claim's flag. -/
theorem C3_counterexample :
    calculatePerformance defaultOps [(dMon, 5)] none (3/100) = emptyPerformanceMetrics ∧
    ("insufficient_data", MVal.bool true) ∉
      calculatePerformance defaultOps [(dMon, 5)] none (3/100) ∧
    ("error", MVal.str "Insufficient data") ∈
      calculatePerformance defaultOps [(dMon, 5)] none (3/100) := by
  have h : calculatePerformance defaultOps [(dMon, 5)] none (3/100) =
      emptyPerformanceMetrics := by
    simp [calculatePerformance]
  refine ⟨h, ?_, ?_⟩
  · rw [h]; simp [emptyPerformanceMetrics]
  · rw [h]; simp [emptyPerformanceMetrics]

/-- C4: every ratio with a legitimately-zero denominator returns
exactly 0: zero excess-return std ⇒ Sharpe 0 (the guard fires on the
std of the excess returns, which equals the std of the daily returns);
zero downside deviation ⇒ Sortino 0; zero max drawdown ⇒ Calmar 0;
zero tracking error ⇒ information ratio 0. -/
theorem C4_zero_denominator_ratios :
    (∀ (ops : FloatOps) (rs : List ℚ) (rf : ℚ),
      sampleStd ops rs = some 0 → sharpeRatioQ ops rs rf = some 0) ∧
    (∀ (ops : FloatOps) (rs : List ℚ) (rf : ℚ),
      downsideDeviationQ ops rs = some 0 →
      sortinoRatioQ ops rs rf (downsideDeviationQ ops rs) = some 0) ∧
    (∀ ar : ℚ, calmarRatioQ ar 0 = 0) ∧
    (∀ er : ℚ, informationRatioQ er (some 0) = some 0) := by
  refine ⟨?_, ?_, ?_, ?_⟩
  · intro ops rs rf h
    unfold sampleStd at h
    split_ifs at h with hl
    injection h with h0
    unfold sharpeRatioQ
    rw [if_neg (by omega : ¬ rs.length = 0)]
    have hstd : sampleStd ops (rs.map (fun r => r - rf / 252)) = some 0 := by
      rw [show (fun r => r - rf / 252) = (fun x => x - rf / 252) from rfl,
        sampleStd_map_sub]
      unfold sampleStd
      rw [if_neg hl, h0]
    simp [hstd]
  · intro ops rs rf h
    unfold sortinoRatioQ
    rw [h]
    split_ifs <;> simp
  · intro ar
    simp [calmarRatioQ]
  · intro er
    simp [informationRatioQ]

/-- Witness for C4 at a constant two-point return series (and the
all-positive case for the downside deviation). -/
theorem C4_zero_denominator_ratios_witness :
    sharpeRatioQ defaultOps [1, 1] (3/100) = some 0 ∧
    sortinoRatioQ defaultOps [1, 1] (3/100) (downsideDeviationQ defaultOps [1, 1]) = some 0 ∧
    calmarRatioQ 5 0 = 0 ∧
    informationRatioQ 5 (some 0) = some 0 :=
  ⟨C4_zero_denominator_ratios.1 defaultOps [1, 1] (3/100) rfl,
   C4_zero_denominator_ratios.2.1 defaultOps [1, 1] (3/100) (by simp [downsideDeviationQ]),
   C4_zero_denominator_ratios.2.2.1 5,
   C4_zero_denominator_ratios.2.2.2 5⟩

/-- C9: every successful run of either strategy returns a
portfolio-value series with exactly one entry per trading day of the
NAV index, in the same order (so dates ascend whenever the index
does). -/
theorem C9_series_one_entry_per_trading_day :
    (∀ (cfg : BacktestConfig) (tbl : NavTable) (iv : List Date)
       (txs : List Transaction) (series : List (Date × ℚ)),
      riExecute cfg tbl iv = .ok (txs, series) →
      series.map Prod.fst = tbl.index ∧ series.length = tbl.index.length) ∧
    (∀ (cfg : BacktestConfig) (tbl : NavTable) (iv : List Date)
       (txs : List Transaction) (series : List (Date × ℚ)),
      vaExecute cfg tbl iv = .ok (txs, series) →
      series.map Prod.fst = tbl.index ∧ series.length = tbl.index.length) := by
  constructor
  · intro cfg tbl iv txs series h
    obtain ⟨-, -, -, h2⟩ := riExecute_ok h
    have hlen := riSeries_length tbl iv (allocOf cfg) (riAmount cfg) (feeOf cfg)
      tbl.index (riSt0 cfg)
    have hs : series = tbl.index.zip (riSeries tbl iv (allocOf cfg) (riAmount cfg)
      (feeOf cfg) (riSt0 cfg) tbl.index) := h2
    subst hs
    exact ⟨List.map_fst_zip _ _ (le_of_eq hlen.symm),
      by rw [List.length_zip, hlen, min_self]⟩
  · intro cfg tbl iv txs series h
    obtain ⟨-, -, -, h2⟩ := vaExecute_ok h
    have hlen := vaSeries_length tbl iv (allocOf cfg) cfg.initial_amount (vaBase cfg)
      (vaGrowth cfg) (vaMaxM cfg) (vaMinM cfg) (feeOf cfg) tbl.index (vaSt0 cfg)
    have hs : series = tbl.index.zip (vaSeries tbl iv (allocOf cfg) cfg.initial_amount
      (vaBase cfg) (vaGrowth cfg) (vaMaxM cfg) (vaMinM cfg) (feeOf cfg)
      (vaSt0 cfg) tbl.index) := h2
    subst hs
    exact ⟨List.map_fst_zip _ _ (le_of_eq hlen.symm),
      by rw [List.length_zip, hlen, min_self]⟩

/-- A one-day regular-investment run with an empty schedule. -/
def cfgRiF : BacktestConfig := ⟨1, dMon, dMon, 1000, "monthly", riParamsA, ["F"]⟩

/-- Witness for C9 on concrete one-day runs of both strategies. -/
theorem C9_series_one_entry_per_trading_day_witness :
    ([((dMon : Date), (1000 : ℚ))].map Prod.fst = tblOne.index ∧
      [((dMon : Date), (1000 : ℚ))].length = tblOne.index.length) ∧
    ([((dMon : Date), (2000 : ℚ))].map Prod.fst = tblOne.index ∧
      [((dMon : Date), (2000 : ℚ))].length = tblOne.index.length) :=
  ⟨C9_series_one_entry_per_trading_day.1 cfgRiF tblOne [] [] [(dMon, 1000)]
     (by simp [riExecute, riValidateParams, riParamsA, cfgRiF, tblOne, riSeries,
       riTradeDay, riSt0, calcPortfolioValue, baseValidateParams, riGetRequiredParams]),
   C9_series_one_entry_per_trading_day.2 cfgVaPre tblOne [] [] [(dMon, 2000)]
     (by simp [vaExecute, vaValidateParams, vaParamsOk, cfgVaPre, tblOne, vaSeries,
       vaTradeDay, vaSt0, calcPortfolioValue, baseValidateParams, vaGetRequiredParams,
       show (10 : ℚ)⁻¹ < 3 by norm_num])⟩

/-- C8 (amended): `_validate_backtest_config` accepts a config iff the
five claimed preconditions hold **and additionally**
`strategy_params['strategy_type']` names a registered strategy; any
rejection carries the message of the first violated check, and a
rejected config fails `run_backtest` with that message before the NAV
fetch (the outcome is independent of the fetch result). -/
theorem C8_config_validation :
    (∀ c : BacktestConfig,
      validateBacktestConfig c = .ok () ↔
        (c.start_date.lt c.end_date = true ∧
         ((c.end_date.toDays : ℤ) - (c.start_date.toDays : ℤ)) ≤ 365 * 5 ∧
         0 < c.initial_amount ∧
         c.fund_codes ≠ [] ∧
         (c.investment_frequency = "daily" ∨ c.investment_frequency = "weekly" ∨
          c.investment_frequency = "monthly") ∧
         (c.strategy_params.strategy_type = some "regular_investment" ∨
          c.strategy_params.strategy_type = some "value_averaging"))) ∧
    (∀ c : BacktestConfig,
      validateBacktestConfig c = .ok () ∨
      ∃ e, validateBacktestConfig c = .error e ∧
        (e = "开始日期必须早于结束日期" ∨ e = "回测时间范围不能超过5年" ∨
         e = "初始金额必须大于0" ∨ e = "必须指定至少一个基金代码" ∨
         e = "投资频率必须是: [daily, weekly, monthly]" ∨
         e = "不支持的策略类型: " ++ (c.strategy_params.strategy_type.getD "None"))) ∧
    (∀ (ops : FloatOps) (benchQ : Option (List (Date × ℚ))) (c : BacktestConfig)
       (e : String) (navFetch : Except String NavTable),
      validateBacktestConfig c = .error e →
      runBacktestModel ops benchQ c navFetch = .error e) := by
  refine ⟨?_, ?_, ?_⟩
  · intro c
    unfold validateBacktestConfig
    split_ifs with h1 h2 h3 h4 h5 h6
    · exact iff_of_false not_false (fun hc => absurd hc.2.1 (not_le.mpr h2))
    · exact iff_of_false not_false (fun hc => absurd hc.2.2.1 (not_lt.mpr h3))
    · exact iff_of_false not_false (fun hc => hc.2.2.2.1 (List.isEmpty_iff.mp h4))
    · exact iff_of_true rfl ⟨h1, not_lt.mp h2, not_le.mp h3,
        fun he => h4 (by simp [he]), h5, h6⟩
    · exact iff_of_false not_false (fun hc => h6 hc.2.2.2.2.2)
    · exact iff_of_false not_false (fun hc => h5 hc.2.2.2.2.1)
    · exact iff_of_false not_false (fun hc => h1 hc.1)
  · intro c
    unfold validateBacktestConfig
    split_ifs
    · exact Or.inr ⟨_, rfl, by tauto⟩
    · exact Or.inr ⟨_, rfl, by tauto⟩
    · exact Or.inr ⟨_, rfl, by tauto⟩
    · exact Or.inl rfl
    · exact Or.inr ⟨_, rfl, by tauto⟩
    · exact Or.inr ⟨_, rfl, by tauto⟩
    · exact Or.inr ⟨_, rfl, by tauto⟩
  · intro ops benchQ c e navFetch hval
    unfold runBacktestModel
    rw [hval]

/-- C8 counterexample: `cfgNoType` satisfies all five preconditions
named by the claim (valid dates and span, positive amount, nonempty
fund codes, declared frequency) yet is rejected, because validation
additionally requires a registered `strategy_type`. -/
theorem C8_counterexample :
    cfgNoType.start_date.lt cfgNoType.end_date = true ∧
    ((cfgNoType.end_date.toDays : ℤ) - (cfgNoType.start_date.toDays : ℤ)) ≤ 365 * 5 ∧
    0 < cfgNoType.initial_amount ∧
    cfgNoType.fund_codes ≠ [] ∧
    cfgNoType.investment_frequency = "daily" ∧
    validateBacktestConfig cfgNoType = .error "不支持的策略类型: None" := by
  refine ⟨by decide, by decide, by norm_num [cfgNoType], by simp [cfgNoType], rfl, ?_⟩
  norm_num [validateBacktestConfig, cfgNoType, dMon, dTue, Date.lt, Date.le, Date.toDays]
  rfl

/-- Witness for C8: the typed variant of the same config passes, and
the rejection of `cfgNoType` propagates unchanged through
`run_backtest` whatever the NAV fetch would have returned. -/
theorem C8_config_validation_witness :
    validateBacktestConfig
      ⟨1, dMon, dTue, 1000, "daily", { strategy_type := some "value_averaging" }, ["F"]⟩
      = .ok () ∧
    runBacktestModel defaultOps none cfgNoType (.error "database down")
      = .error "不支持的策略类型: None" :=
  ⟨(C8_config_validation.1 _).mpr
     ⟨by decide, by decide, by norm_num, by simp, Or.inl rfl, Or.inr rfl⟩,
   C8_config_validation.2.2 defaultOps none cfgNoType _ _
     (by
       norm_num [validateBacktestConfig, cfgNoType, dMon, dTue, Date.lt, Date.le,
         Date.toDays]
       rfl)⟩

/-- C2 (amended): the value recorded for a trading day by
RegularInvestment is `cash + Σ shares × nav` of the state *after* that
day's transactions settle, but ValueAveraging records the value
computed *before* its same-day transactions (the state in which only
the previous days settled). -/
theorem C2_value_recording :
    (∀ (cfg : BacktestConfig) (tbl : NavTable) (iv : List Date)
       (txs : List Transaction) (series : List (Date × ℚ)) (i : ℕ),
      riExecute cfg tbl iv = .ok (txs, series) → i < tbl.index.length →
      (series.map Prod.snd).getD i 0 =
        (riStateAfter cfg tbl iv (i + 1)).cash +
          calcPortfolioValue (riStateAfter cfg tbl iv (i + 1)).holdings tbl
            (tbl.index.getD i ⟨0, 0, 0⟩)) ∧
    (∀ (cfg : BacktestConfig) (tbl : NavTable) (iv : List Date)
       (txs : List Transaction) (series : List (Date × ℚ)) (i : ℕ),
      vaExecute cfg tbl iv = .ok (txs, series) → i < tbl.index.length →
      (series.map Prod.snd).getD i 0 =
        (vaStateAfter cfg tbl iv i).cash +
          calcPortfolioValue (vaStateAfter cfg tbl iv i).holdings tbl
            (tbl.index.getD i ⟨0, 0, 0⟩)) := by
  constructor
  · intro cfg tbl iv txs series i h hi
    obtain ⟨-, -, -, h2⟩ := riExecute_ok h
    have hs : series = tbl.index.zip (riSeries tbl iv (allocOf cfg) (riAmount cfg)
      (feeOf cfg) (riSt0 cfg) tbl.index) := h2
    subst hs
    have hlen := riSeries_length tbl iv (allocOf cfg) (riAmount cfg) (feeOf cfg)
      tbl.index (riSt0 cfg)
    rw [List.map_snd_zip _ _ (le_of_eq hlen)]
    exact riSeries_getD tbl iv (allocOf cfg) (riAmount cfg) (feeOf cfg)
      tbl.index (riSt0 cfg) i hi
  · intro cfg tbl iv txs series i h hi
    obtain ⟨-, -, -, h2⟩ := vaExecute_ok h
    have hs : series = tbl.index.zip (vaSeries tbl iv (allocOf cfg) cfg.initial_amount
      (vaBase cfg) (vaGrowth cfg) (vaMaxM cfg) (vaMinM cfg) (feeOf cfg)
      (vaSt0 cfg) tbl.index) := h2
    subst hs
    have hlen := vaSeries_length tbl iv (allocOf cfg) cfg.initial_amount (vaBase cfg)
      (vaGrowth cfg) (vaMaxM cfg) (vaMinM cfg) (feeOf cfg) tbl.index (vaSt0 cfg)
    rw [List.map_snd_zip _ _ (le_of_eq hlen)]
    exact vaSeries_getD tbl iv (allocOf cfg) cfg.initial_amount (vaBase cfg)
      (vaGrowth cfg) (vaMaxM cfg) (vaMinM cfg) (feeOf cfg) tbl.index (vaSt0 cfg) i hi

/-- Witness for C2 at concrete one-day runs of both strategies. -/
theorem C2_value_recording_witness :
    (([((dMon : Date), (1000 : ℚ))].map Prod.snd).getD 0 0 =
      (riStateAfter cfgRiF tblOne [] 1).cash +
        calcPortfolioValue (riStateAfter cfgRiF tblOne [] 1).holdings tblOne
          (tblOne.index.getD 0 ⟨0, 0, 0⟩)) ∧
    (([((dMon : Date), (2000 : ℚ))].map Prod.snd).getD 0 0 =
      (vaStateAfter cfgVaPre tblOne [] 0).cash +
        calcPortfolioValue (vaStateAfter cfgVaPre tblOne [] 0).holdings tblOne
          (tblOne.index.getD 0 ⟨0, 0, 0⟩)) :=
  ⟨C2_value_recording.1 cfgRiF tblOne [] [] [(dMon, 1000)] 0
     (by simp [riExecute, riValidateParams, riParamsA, cfgRiF, tblOne, riSeries,
       riTradeDay, riSt0, calcPortfolioValue, baseValidateParams, riGetRequiredParams])
     (by decide),
   C2_value_recording.2 cfgVaPre tblOne [] [] [(dMon, 2000)] 0
     (by simp [vaExecute, vaValidateParams, vaParamsOk, cfgVaPre, tblOne, vaSeries,
       vaTradeDay, vaSt0, calcPortfolioValue, baseValidateParams, vaGetRequiredParams,
       show (10 : ℚ)⁻¹ < 3 by norm_num])
     (by decide)⟩

/-- C2 counterexample: a one-day value-averaging run (initial 2000,
base 1000, default 0.1 % fee) records 2000 for the day, but the
post-trade value — cash 1000 plus 999 shares at NAV 1 — is 1999. -/
theorem C2_counterexample :
    vaExecute cfgVaPre tblOne [dMon] =
      .ok ([⟨dMon, "F", "buy", 999, 999, 1⟩], [(dMon, 2000)]) ∧
    (vaStateAfter cfgVaPre tblOne [dMon] 1).cash +
      calcPortfolioValue (vaStateAfter cfgVaPre tblOne [dMon] 1).holdings tblOne
        (tblOne.index.getD 0 ⟨0, 0, 0⟩) = 1999 ∧
    (2000 : ℚ) ≠ 1999 := by
  refine ⟨?_, ?_, by norm_num⟩
  · norm_num [vaExecute, vaValidateParams, baseValidateParams, vaGetRequiredParams,
      cfgVaPre, vaParamsOk, tblOne, dMon, resolveAllocation, hasKey, vaSeries,
      vaTradeDay, vaTargetValue, vaBuyLeg, vaSellLeg, calcPortfolioValue,
      NavTable.cell, holdingsGet, setKey, allocOf, vaBase, vaGrowth, vaMaxM, vaMinM,
      feeOf, vaSt0]
  · norm_num [vaStateAfter, vaStep, vaSt0, cfgVaPre, vaParamsOk, tblOne, dMon,
      resolveAllocation, hasKey, vaTradeDay, vaTargetValue, vaBuyLeg, vaSellLeg,
      calcPortfolioValue, NavTable.cell, holdingsGet, setKey, allocOf, vaBase,
      vaGrowth, vaMaxM, vaMinM, feeOf]

/-- C1 (amended): holdings never go negative in any successful
RegularInvestment run, at day boundaries and through every buy-leg
fold; for ValueAveraging the same holds *provided* the effective
`fee_rate ≤ 1` (its `validate_params` never bounds the fee) — sell
legs preserve nonnegativity unconditionally thanks to the
`shares_to_sell ≤ available` guard, and buy legs add
`amt × w × (1 − fee) / nav ≥ 0` shares only when `fee ≤ 1`. -/
theorem C1_holdings_nonnegative :
    (∀ (cfg : BacktestConfig) (tbl : NavTable) (iv : List Date)
       (res : List Transaction × List (Date × ℚ)),
      riExecute cfg tbl iv = .ok res →
      ∀ (i : ℕ) (f : String), 0 ≤ holdingsGet (riStateAfter cfg tbl iv i).holdings f) ∧
    (∀ (tbl : NavTable) (d : Date) (amount fee : ℚ) (alloc : List (String × ℚ))
       (st : PState), 0 ≤ amount → fee ≤ 1 → nonnegHoldings st.holdings →
      nonnegHoldings (alloc.foldl (riBuyLeg tbl d amount fee) st).holdings) ∧
    (∀ (cfg : BacktestConfig) (tbl : NavTable) (iv : List Date)
       (res : List Transaction × List (Date × ℚ)),
      vaExecute cfg tbl iv = .ok res → feeOf cfg ≤ 1 →
      ∀ (i : ℕ) (f : String), 0 ≤ holdingsGet (vaStateAfter cfg tbl iv i).holdings f) ∧
    (∀ (tbl : NavTable) (d : Date) (amt fee : ℚ) (alloc : List (String × ℚ))
       (st : VState), 0 ≤ amt → fee ≤ 1 → nonnegHoldings st.holdings →
      nonnegHoldings (alloc.foldl (vaBuyLeg tbl d amt fee) st).holdings) ∧
    (∀ (tbl : NavTable) (d : Date) (sell_amount fee : ℚ) (alloc : List (String × ℚ))
       (st : VState), nonnegHoldings st.holdings →
      nonnegHoldings (alloc.foldl (vaSellLeg tbl d sell_amount fee) st).holdings) := by
  refine ⟨?_, ?_, ?_, ?_, ?_⟩
  · intro cfg tbl iv res h i f
    obtain ⟨hv, -, -, -⟩ := riExecute_ok h
    have hamt := (riValidateParams_facts _ hv).1
    have hfee := (riValidateParams_fee_exec _ hv).2
    exact foldl_riTradeDay_nonneg tbl iv (allocOf cfg) (riAmount cfg) (feeOf cfg)
      (le_of_lt hamt) hfee (tbl.index.take i) (riSt0 cfg) nonnegHoldings_nil f
  · intro tbl d amount fee alloc st hamt hfee H
    exact foldl_riBuyLeg_nonneg tbl d amount fee hamt hfee alloc st H
  · intro cfg tbl iv res h hfee i f
    obtain ⟨hv, -, -, -⟩ := vaExecute_ok h
    exact foldl_vaTradeDay_nonneg tbl iv (allocOf cfg) cfg.initial_amount (vaBase cfg)
      (vaGrowth cfg) (vaMaxM cfg) (vaMinM cfg) (feeOf cfg)
      (vaValidateParams_base_exec _ hv) (vaValidateParams_max_exec _ hv) hfee
      (tbl.index.take i) (vaSt0 cfg) nonnegHoldings_nil f
  · intro tbl d amt fee alloc st hamt hfee H
    exact foldl_vaBuyLeg_nonneg tbl d amt fee hamt hfee alloc st H
  · intro tbl d sell_amount fee alloc st H
    exact foldl_vaSellLeg_nonneg tbl d sell_amount fee alloc st H

/-- Witness for C1 on concrete one-day runs. -/
theorem C1_holdings_nonnegative_witness :
    0 ≤ holdingsGet (riStateAfter cfgRiF tblOne [] 1).holdings "F" ∧
    0 ≤ holdingsGet (vaStateAfter cfgVaPre tblOne [] 1).holdings "F" :=
  ⟨C1_holdings_nonnegative.1 cfgRiF tblOne [] ([], [(dMon, 1000)])
     (by simp [riExecute, riValidateParams, riParamsA, cfgRiF, tblOne, riSeries,
       riTradeDay, riSt0, calcPortfolioValue, baseValidateParams, riGetRequiredParams])
     1 "F",
   C1_holdings_nonnegative.2.2.1 cfgVaPre tblOne [] ([], [(dMon, 2000)])
     (by simp [vaExecute, vaValidateParams, vaParamsOk, cfgVaPre, tblOne, vaSeries,
       vaTradeDay, vaSt0, calcPortfolioValue, baseValidateParams, vaGetRequiredParams,
       show (10 : ℚ)⁻¹ < 3 by norm_num])
     (by norm_num [feeOf, cfgVaPre, vaParamsOk]) 1 "F"⟩

/-- C1 counterexample: `fee_rate = 2` passes
`ValueAveragingStrategy.validate_params` (which never checks the fee),
and the very first "buy" then *subtracts* shares:
`1000 × 1 × (1 − 2) / 1 = −1000`, leaving holdings at −1000. -/
theorem C1_counterexample :
    vaValidateParams vaParamsFee2 = true ∧
    vaExecute cfgVaFee2 tblOne [dMon] =
      .ok ([⟨dMon, "F", "buy", -1000, -1000, 1⟩], [(dMon, 2000)]) ∧
    holdingsGet (vaStateAfter cfgVaFee2 tblOne [dMon] 1).holdings "F" = -1000 ∧
    ¬ (0 : ℚ) ≤ -1000 := by
  refine ⟨?_, ?_, ?_, by norm_num⟩
  · norm_num [vaValidateParams, baseValidateParams, vaGetRequiredParams, vaParamsFee2,
      vaParamsOk]
  · norm_num [vaExecute, vaValidateParams, baseValidateParams, vaGetRequiredParams,
      cfgVaFee2, vaParamsFee2, vaParamsOk, tblOne, dMon, resolveAllocation, hasKey,
      vaSeries, vaTradeDay, vaTargetValue, vaBuyLeg, vaSellLeg, calcPortfolioValue,
      NavTable.cell, holdingsGet, setKey, allocOf, vaBase, vaGrowth, vaMaxM, vaMinM,
      feeOf, vaSt0]
  · norm_num [vaStateAfter, vaStep, vaSt0, cfgVaFee2, vaParamsFee2, vaParamsOk, tblOne,
      dMon, resolveAllocation, hasKey, vaTradeDay, vaTargetValue, vaBuyLeg, vaSellLeg,
      calcPortfolioValue, NavTable.cell, holdingsGet, setKey, allocOf, vaBase,
      vaGrowth, vaMaxM, vaMinM, feeOf]

/-- C5 (amended): on a scheduled date with
`required = target(t) − current_value > 0`, the buy amount is
`required` clamped to
`[base × min_investment_multiplier, base × max_investment_multiplier]`,
but it is **not** further reduced to the available cash: when
`cash < clamped amount` no buy happens at all (only the period counter
advances); when cash covers it, one leg per positively weighted fund
with a valid NAV executes, each with pre-fee amount `clamped × w`
(after-fee amount recorded on the transaction), totalling
`clamped × Σw` of cash. -/
theorem C5_buy_clamped_or_skipped
    (tbl : NavTable) (inv_dates : List Date) (alloc : List (String × ℚ))
    (initial base g maxM minM fee : ℚ) (st : VState) (d : Date)
    (hd : d ∈ inv_dates)
    (hreq : 0 < vaTargetValue initial base g (st.period + 1) -
      (st.cash + calcPortfolioValue st.holdings tbl d)) :
    (st.cash < min (base * maxM) (max (base * minM)
        (vaTargetValue initial base g (st.period + 1) -
          (st.cash + calcPortfolioValue st.holdings tbl d))) →
      vaTradeDay tbl inv_dates alloc initial base g maxM minM fee st d =
        { st with period := st.period + 1 }) ∧
    (min (base * maxM) (max (base * minM)
        (vaTargetValue initial base g (st.period + 1) -
          (st.cash + calcPortfolioValue st.holdings tbl d))) ≤ st.cash →
      (∀ p ∈ alloc, 0 < p.2 ∧ p.1 ∈ tbl.columns ∧
        ∃ nav, tbl.entry d p.1 = some nav ∧ 0 < nav) →
      (vaTradeDay tbl inv_dates alloc initial base g maxM minM fee st d).txs =
          st.txs ++ alloc.map (vaBuyTx tbl d
            (min (base * maxM) (max (base * minM)
              (vaTargetValue initial base g (st.period + 1) -
                (st.cash + calcPortfolioValue st.holdings tbl d)))) fee) ∧
        (vaTradeDay tbl inv_dates alloc initial base g maxM minM fee st d).cash =
          st.cash - min (base * maxM) (max (base * minM)
              (vaTargetValue initial base g (st.period + 1) -
                (st.cash + calcPortfolioValue st.holdings tbl d)))
            * (alloc.map Prod.snd).sum) := by
  constructor
  · intro hcash
    exact vaTradeDay_insufficient_cash tbl inv_dates alloc initial base g maxM minM fee
      st d hd hreq hcash
  · intro hcash hex
    rw [vaTradeDay_buy tbl inv_dates alloc initial base g maxM minM fee st d hd hreq
      hcash]
    obtain ⟨htxs, hc, -⟩ := foldl_vaBuyLeg_spec tbl d
      (min (base * maxM) (max (base * minM)
        (vaTargetValue initial base g (st.period + 1) -
          (st.cash + calcPortfolioValue st.holdings tbl d)))) fee alloc
      { st with period := st.period + 1 } hex
    exact ⟨htxs, hc⟩

/-- Witness for C5: the one-fund buy of the `cfgVaPre` scenario
(required 1000, clamp [100, 3000], cash 2000). -/
theorem C5_buy_clamped_or_skipped_witness :
    (vaTradeDay tblOne [dMon] [("F", 1)] 2000 1000 (1/100) 3 (1/10) (1/1000)
        ⟨2000, [], [], 0⟩ dMon).txs =
      [] ++ [("F", (1 : ℚ))].map (vaBuyTx tblOne dMon
        (min ((1000 : ℚ) * 3) (max ((1000 : ℚ) * (1/10))
          (vaTargetValue 2000 1000 (1/100) (0 + 1) -
            (2000 + calcPortfolioValue [] tblOne dMon)))) (1/1000)) ∧
    (vaTradeDay tblOne [dMon] [("F", 1)] 2000 1000 (1/100) 3 (1/10) (1/1000)
        ⟨2000, [], [], 0⟩ dMon).cash =
      2000 - min ((1000 : ℚ) * 3) (max ((1000 : ℚ) * (1/10))
          (vaTargetValue 2000 1000 (1/100) (0 + 1) -
            (2000 + calcPortfolioValue [] tblOne dMon)))
        * ([("F", (1 : ℚ))].map Prod.snd).sum :=
  (C5_buy_clamped_or_skipped tblOne [dMon] [("F", 1)] 2000 1000 (1/100) 3 (1/10)
      (1/1000) ⟨2000, [], [], 0⟩ dMon (by simp)
      (by norm_num [vaTargetValue, calcPortfolioValue])).2
    (by norm_num [vaTargetValue, calcPortfolioValue])
    (by
      intro p hp
      simp only [List.mem_singleton] at hp
      subst hp
      refine ⟨by norm_num, by simp [tblOne], 1, by simp [tblOne], by norm_num⟩)

/-- C5 counterexample: with cash 500 and a clamped requirement of 1000,
no transaction is executed at all — the buy is not reduced to the
available cash as the claim states. -/
theorem C5_counterexample :
    vaExecute cfgVaPoor tblOne [dMon] = .ok ([], [(dMon, 500)]) ∧
    vaTargetValue 500 1000 (1/100) 1 - 500 = 1000 ∧
    (0 : ℚ) < 1000 ∧
    min ((1000 : ℚ) * 3) (max ((1000 : ℚ) * (1/10)) 1000) = 1000 ∧
    (500 : ℚ) < 1000 := by
  refine ⟨?_, by norm_num [vaTargetValue], by norm_num, by norm_num, by norm_num⟩
  norm_num [vaExecute, vaValidateParams, baseValidateParams, vaGetRequiredParams,
    cfgVaPoor, vaParamsOk, tblOne, dMon, resolveAllocation, hasKey, vaSeries,
    vaTradeDay, vaTargetValue, vaBuyLeg, vaSellLeg, calcPortfolioValue,
    NavTable.cell, holdingsGet, setKey, allocOf, vaBase, vaGrowth, vaMaxM, vaMinM,
    feeOf, vaSt0]

/-- Scenario A of the spec as a full engine configuration. -/
def cfgScenA : BacktestConfig :=
  ⟨1, ⟨2024, 9, 2⟩, ⟨2024, 9, 13⟩, 1000, "monthly",
   { strategy_type := some "regular_investment", investment_amount := some 1000,
     fee_rate := some 0 }, ["000001"]⟩

def txsScenA : List Transaction := [⟨dMon, "000001", "buy", 1000, 1000, 1⟩]

def seriesScenA : List (Date × ℚ) := daysTen.map (fun d => (d, 1000))

def txsScenB : List Transaction := [⟨dMon, "000001", "buy", 990, 990, 1⟩]

def seriesScenB : List (Date × ℚ) := daysTen.map (fun d => (d, 990))

/-- C6: on each scheduled date the regular-investment day runs one leg
per allocation entry, and an executable leg buys exactly
`amount × w × (1 − fee) / nav` shares while debiting `amount × w` of
cash; concretely, scenario A (single fund, NAV 1 for 10 days, amount
1000, fee 0, one scheduled date, run through the engine) buys 1000
shares with `total_invested = 1000` and `total_return = 0`, and
scenario B (fee 1 %) buys 990 shares. -/
theorem C6_leg_formula_and_scenarios :
    (∀ (tbl : NavTable) (iv : List Date) (alloc : List (String × ℚ))
       (amount fee : ℚ) (st : PState) (d : Date), d ∈ iv →
      riTradeDay tbl iv alloc amount fee st d = alloc.foldl (riBuyLeg tbl d amount fee) st) ∧
    (∀ (tbl : NavTable) (d : Date) (amount fee : ℚ) (st : PState) (p : String × ℚ)
       (nav : ℚ), 0 < p.2 → p.1 ∈ tbl.columns → tbl.entry d p.1 = some nav → 0 < nav →
      st.cash ≥ amount * p.2 →
      riBuyLeg tbl d amount fee st p =
        { cash := st.cash - amount * p.2,
          holdings := setKey st.holdings p.1
            (holdingsGet st.holdings p.1 + amount * p.2 * (1 - fee) / nav),
          txs := st.txs ++ [⟨d, p.1, "buy", amount * p.2 * (1 - fee),
                             amount * p.2 * (1 - fee) / nav, nav⟩] }) ∧
    (∀ ops : FloatOps, executeBacktestModel ops none cfgScenA tblTen =
      .ok ⟨1000, 1000, .num 0, txsScenA, seriesScenA⟩) ∧
    holdingsGet (riStateAfter cfgScenA tblTen [dMon] 10).holdings "000001" = 1000 ∧
    riExecute cfgRiB tblTen [dMon] = .ok (txsScenB, seriesScenB) ∧
    holdingsGet (riStateAfter cfgRiB tblTen [dMon] 10).holdings "000001" = 990 := by
  refine ⟨?_, ?_, ?_, ?_, ?_, ?_⟩
  · intro tbl iv alloc amount fee st d hd
    exact riTradeDay_scheduled tbl iv alloc amount fee st d hd
  · intro tbl d amount fee st p nav hw hcol he hnav hcash
    exact riBuyLeg_spec tbl d amount fee st p nav hw hcol he hnav hcash
  · intro ops
    have hg : generateInvestmentDates cfgScenA = .ok [dMon] := rfl
    have hr : riExecute cfgScenA tblTen [dMon] = .ok (txsScenA, seriesScenA) := by
      norm_num [riExecute, riValidateParams, baseValidateParams, riGetRequiredParams,
        cfgScenA, tblTen, daysTen, dMon, resolveAllocation, hasKey, riSeries,
        riTradeDay, riBuyLeg, calcPortfolioValue, NavTable.cell, holdingsGet, setKey,
        allocOf, riAmount, feeOf, riSt0, txsScenA, seriesScenA]
    simp only [executeBacktestModel, hg, hr]
    norm_num [cfgScenA, calculatePerformance, mvLookupD, seriesScenA, daysTen,
      totalReturnQ, txsScenA, List.find?]
  · norm_num [riStateAfter, riStep, riSt0, cfgScenA, tblTen, daysTen, dMon,
      resolveAllocation, hasKey, riTradeDay, riBuyLeg, calcPortfolioValue,
      NavTable.cell, holdingsGet, setKey, allocOf, riAmount, feeOf]
  · norm_num [riExecute, riValidateParams, baseValidateParams, riGetRequiredParams,
      cfgRiB, riParamsB, tblTen, daysTen, dMon, resolveAllocation, hasKey, riSeries,
      riTradeDay, riBuyLeg, calcPortfolioValue, NavTable.cell, holdingsGet, setKey,
      allocOf, riAmount, feeOf, riSt0, txsScenB, seriesScenB]
  · norm_num [riStateAfter, riStep, riSt0, cfgRiB, riParamsB, tblTen, daysTen, dMon,
      resolveAllocation, hasKey, riTradeDay, riBuyLeg, calcPortfolioValue,
      NavTable.cell, holdingsGet, setKey, allocOf, riAmount, feeOf]

/-- Witness for C6's universal parts at a concrete executable leg. -/
theorem C6_leg_formula_and_scenarios_witness :
    riTradeDay tblOne [dMon] [("F", 1)] 1000 0 (riSt0 cfgRiF) dMon =
      [("F", (1 : ℚ))].foldl (riBuyLeg tblOne dMon 1000 0) (riSt0 cfgRiF) ∧
    riBuyLeg tblOne dMon 1000 0 (riSt0 cfgRiF) ("F", 1) =
      { cash := (riSt0 cfgRiF).cash - 1000 * ("F", (1 : ℚ)).2,
        holdings := setKey (riSt0 cfgRiF).holdings ("F", (1 : ℚ)).1
          (holdingsGet (riSt0 cfgRiF).holdings ("F", (1 : ℚ)).1 +
            1000 * ("F", (1 : ℚ)).2 * (1 - 0) / 1),
        txs := (riSt0 cfgRiF).txs ++ [⟨dMon, ("F", (1 : ℚ)).1, "buy",
          1000 * ("F", (1 : ℚ)).2 * (1 - 0), 1000 * ("F", (1 : ℚ)).2 * (1 - 0) / 1, 1⟩] } :=
  ⟨C6_leg_formula_and_scenarios.1 tblOne [dMon] [("F", 1)] 1000 0 (riSt0 cfgRiF) dMon
     (by simp),
   C6_leg_formula_and_scenarios.2.1 tblOne dMon 1000 0 (riSt0 cfgRiF) ("F", 1) 1
     (by norm_num) (by simp [tblOne]) (by simp [tblOne]) (by norm_num)
     (by norm_num [riSt0, cfgRiF])⟩

/-- C7 (amended): the schedule a run uses is exactly the raw stepping
chain from `start_date` at the configured frequency with weekend dates
filtered out — **no snapping to a preceding trading day is ever
applied**: during execution a strategy trades only on days that are
simultaneously in the NAV index and (exactly) in the generated
schedule, so a non-trading candidate date is silently skipped rather
than snapped. -/
theorem C7_schedule_is_unsnapped_candidates :
    (∀ c : BacktestConfig,
      generateInvestmentDates c =
        (stepChain c.investment_frequency c.end_date
          (c.end_date.toDays + 2 - c.start_date.toDays) c.start_date).map
          (fun l => l.filter (fun d => decide (d.weekday < 5)))) ∧
    (∀ (cfg : BacktestConfig) (tbl : NavTable) (iv : List Date)
       (txs : List Transaction) (series : List (Date × ℚ)),
      riExecute cfg tbl iv = .ok (txs, series) →
      ∀ t ∈ txs, t.txdate ∈ tbl.index ∧ t.txdate ∈ iv) ∧
    (∀ (cfg : BacktestConfig) (tbl : NavTable) (iv : List Date)
       (txs : List Transaction) (series : List (Date × ℚ)),
      vaExecute cfg tbl iv = .ok (txs, series) →
      ∀ t ∈ txs, t.txdate ∈ tbl.index ∧ t.txdate ∈ iv) := by
  refine ⟨?_, ?_, ?_⟩
  · intro c
    exact genDates_eq_filter c.investment_frequency c.end_date
      (c.end_date.toDays + 2 - c.start_date.toDays) c.start_date
  · intro cfg tbl iv txs series h t ht
    obtain ⟨-, -, h1, -⟩ := riExecute_ok h
    have ht2 : t ∈ (tbl.index.foldl (riStep cfg tbl iv) (riSt0 cfg)).txs := by
      rw [← h1]; exact ht
    rcases foldl_riTradeDay_txs_mem tbl iv (allocOf cfg) (riAmount cfg) (feeOf cfg)
      tbl.index (riSt0 cfg) t ht2 with h3 | h3
    · cases h3
    · exact h3
  · intro cfg tbl iv txs series h t ht
    obtain ⟨-, -, h1, -⟩ := vaExecute_ok h
    have ht2 : t ∈ (tbl.index.foldl (vaStep cfg tbl iv) (vaSt0 cfg)).txs := by
      rw [← h1]; exact ht
    rcases foldl_vaTradeDay_txs_mem tbl iv (allocOf cfg) cfg.initial_amount
      (vaBase cfg) (vaGrowth cfg) (vaMaxM cfg) (vaMinM cfg) (feeOf cfg)
      tbl.index (vaSt0 cfg) t ht2 with h3 | h3
    · cases h3
    · exact h3

/-- Witness for C7 on a run that does trade: the transaction's date is
a trading day and a scheduled day. -/
theorem C7_schedule_is_unsnapped_candidates_witness :
    (⟨dMon, "F", "buy", 1000, 1000, 1⟩ : Transaction).txdate ∈ tblOne.index ∧
    (⟨dMon, "F", "buy", 1000, 1000, 1⟩ : Transaction).txdate ∈ [dMon] :=
  C7_schedule_is_unsnapped_candidates.2.1 cfgRiF tblOne [dMon]
    [⟨dMon, "F", "buy", 1000, 1000, 1⟩] [(dMon, 1000)]
    (by norm_num [riExecute, riValidateParams, baseValidateParams, riGetRequiredParams,
      cfgRiF, riParamsA, tblOne, dMon, resolveAllocation, hasKey, riSeries,
      riTradeDay, riBuyLeg, calcPortfolioValue, NavTable.cell, holdingsGet, setKey,
      allocOf, riAmount, feeOf, riSt0])
    ⟨dMon, "F", "buy", 1000, 1000, 1⟩ (by simp)

/-- C7 counterexample: with `start = end =` Tuesday 2024-09-03 and NAV
index `[Mon, Wed]`, the schedule actually used is the raw candidate
`[Tue]`, while the claim's snapped schedule is `[Mon]`; the run
consequently executes no transaction even though cash is ample and the
snapped Monday is a trading day. -/
theorem C7_counterexample :
    generateInvestmentDates cfgTue = .ok [dTue] ∧
    specSnappedSchedule cfgTue tblSkip = .ok [dMon] ∧
    ([dTue] : List Date) ≠ [dMon] ∧
    riExecute cfgTue tblSkip [dTue] = .ok ([], [(dMon, 1000), (dWed, 1000)]) ∧
    dMon ∈ tblSkip.index := by
  refine ⟨rfl, rfl, by decide, ?_, by simp [tblSkip]⟩
  norm_num [riExecute, riValidateParams, baseValidateParams, riGetRequiredParams,
    cfgTue, tblSkip, dMon, dTue, dWed, resolveAllocation, hasKey, riSeries,
    riTradeDay, riBuyLeg, calcPortfolioValue, NavTable.cell, holdingsGet, setKey,
    allocOf, riAmount, feeOf, riSt0]
